import Mathlib

/-!
NanoBoyAdvance timer bank (`src/core/timer.cpp`).

A shallow embedding of `CPU::ResetTimers`, `CPU::ReadTimer`, `CPU::WriteTimer`
and `CPU::RunTimers`, and theorems about them.

Modelling conventions.

* `cpu.hpp`, which declares the timer record, `mmio.irq_if` and
  `CPU::INT_TIMER0`, is not among the sources.  The record is rebuilt from the
  fields that `timer.cpp` touches.  `int` arithmetic is carried out on
  mathematical integers (no wrap-around at 2^31), and `counter` / `reload` are
  integers as well: nothing is truncated to 16 bits, so every range fact is
  stated as a hypothesis or proved, never assumed from the field width.
* `CPU::INT_TIMER0` is a parameter of `RunTimers`.
* A timer index is a `Fin 4` (the array `mmio.timer[4]`), a written byte is a
  `Fin 256` (`std::uint8_t`), and a returned `std::uint8_t` is a natural number
  reduced modulo 256.
* A shift amount (`g_ticks_shift`, `timer.shift`) and the two-bit `frequency`
  are natural numbers.
* `>>` on `int` is the arithmetic shift (`Int.shiftRight`) and `/`, `%` on `int` truncate toward
  zero (`Int.tdiv`, `Int.tmod`).
-/

namespace NanoboyAdvance.GBA

/-- Table `g_ticks_shift` (timer.cpp line 12). -/
def g_ticks_shift : List Nat := [0, 6, 8, 10]

/-- Table `g_ticks_mask` (timer.cpp line 13). -/
def g_ticks_mask : List Int := [0, 0x3F, 0xFF, 0x3FF]

/-- The `control` sub-record of a timer. -/
structure Control where
  frequency : Nat
  cascade : Bool
  interrupt : Bool
  enable : Bool
deriving DecidableEq

/-- One entry of `mmio.timer[4]`, with the fields used by timer.cpp. -/
structure Timer where
  id : Int
  cycles : Int
  reload : Int
  counter : Int
  control : Control
  overflow : Bool
  shift : Nat
  mask : Int
deriving DecidableEq

/-- The part of `mmio` that timer.cpp reads and writes. -/
structure Mmio where
  timer : Fin 4 → Timer
  irq_if : Nat

/-- Body of the loop of `CPU::ResetTimers` (lines 17-29) for one `id`. -/
def CPU.ResetTimers.body (mmio : Mmio) (id : Fin 4) : Mmio :=
  let timer := mmio.timer id
  let timer := { timer with id := (id.val : Int) }
  let timer := { timer with cycles := 0 }
  let timer := { timer with reload := 0 }
  let timer := { timer with counter := 0 }
  let timer := { timer with control := { timer.control with frequency := 0 } }
  let timer := { timer with control := { timer.control with cascade := false } }
  let timer := { timer with control := { timer.control with interrupt := false } }
  let timer := { timer with control := { timer.control with enable := false } }
  let timer := { timer with overflow := false }
  let timer := { timer with shift := 0 }
  let timer := { timer with mask := 0 }
  { mmio with timer := Function.update mmio.timer id timer }

/-- Function `CPU::ResetTimers` (lines 15-31): the loop over `id = 0, 1, 2, 3`. -/
def CPU.ResetTimers (mmio : Mmio) : Mmio :=
  [0, 1, 2, 3].foldl CPU.ResetTimers.body mmio

/-- Function `CPU::ReadTimer` (lines 33-51); the result is converted to `std::uint8_t`. -/
def CPU.ReadTimer (mmio : Mmio) (id : Fin 4) (offset : Int) : Nat :=
  let timer := mmio.timer id
  match offset with
  | 0 => (Int.land timer.counter 0xFF % 256).toNat
  | 1 => (Int.shiftRight timer.counter 8 % 256).toNat
  | 2 =>
    (timer.control.frequency |||
      (if timer.control.cascade then 4 else 0) |||
      (if timer.control.interrupt then 64 else 0) |||
      (if timer.control.enable then 128 else 0)) % 256
  | _ => 0

/-- Function `CPU::WriteTimer` (lines 53-75). -/
def CPU.WriteTimer (mmio : Mmio) (id : Fin 4) (offset : Int) (value : Fin 256) : Mmio :=
  let timer := mmio.timer id
  match offset with
  | 0 =>
    let timer := { timer with
      reload := Int.lor (Int.land timer.reload 0xFF00) ((value.val <<< 0 : Nat) : Int) }
    { mmio with timer := Function.update mmio.timer id timer }
  | 1 =>
    let timer := { timer with
      reload := Int.lor (Int.land timer.reload 0x00FF) ((value.val <<< 8 : Nat) : Int) }
    { mmio with timer := Function.update mmio.timer id timer }
  | 2 =>
    let enable_previous := timer.control.enable
    let timer := { timer with control := { timer.control with frequency := value.val &&& 3 } }
    let timer := { timer with control := { timer.control with cascade := value.val &&& 4 != 0 } }
    let timer := { timer with control := { timer.control with interrupt := value.val &&& 64 != 0 } }
    let timer := { timer with control := { timer.control with enable := value.val &&& 128 != 0 } }
    let timer := { timer with shift := g_ticks_shift.getD timer.control.frequency 0 }
    let timer := { timer with mask := g_ticks_mask.getD timer.control.frequency 0 }
    let timer :=
      if !enable_previous && timer.control.enable then
        { timer with counter := timer.reload }
      else timer
    { mmio with timer := Function.update mmio.timer id timer }
  | _ => mmio

/-- Body of the loop of `CPU::RunTimers` (lines 80-138) for one `id`.  Next to
the new state it returns the number of wraps the timer made in this iteration:
the final value of the local `overflows` on the free-running path, and `1` on
the cascade path's reload branch (the count the disabled FIFO hook of line 99
would receive), `0` when the timer does not wrap. -/
def CPU.RunTimers.body (INT_TIMER0 : Nat) (cycles : Int) (mmio : Mmio) (id : Fin 4) :
    Mmio × Int :=
  let timer := mmio.timer id
  let control := timer.control
  if !control.enable then
    (mmio, 0)
  else if control.cascade then
    if id ≠ 0 ∧ (mmio.timer (id - 1)).overflow = true then
      let timer := { timer with overflow := false }
      let r : Timer × Nat × Int :=
        if timer.counter ≠ (0xFFFF : Int) then
          ({ timer with counter := timer.counter + 1 }, mmio.irq_if, 0)
        else
          let timer := { timer with counter := timer.reload }
          let timer := { timer with overflow := true }
          let irq_if :=
            if control.interrupt then mmio.irq_if ||| (INT_TIMER0 <<< id.val) else mmio.irq_if
          (timer, irq_if, 1)
      let timer := r.1
      let irq_if := r.2.1
      let wraps := r.2.2
      let timers := Function.update mmio.timer id timer
      let timers := Function.update timers (id - 1) { timers (id - 1) with overflow := false }
      ({ timer := timers, irq_if := irq_if }, wraps)
    else
      (mmio, 0)
  else
    let available := timer.cycles + cycles
    let overflows : Int := 0
    let timer := { timer with overflow := false }
    let increments := Int.shiftRight available timer.shift
    let to_overflow := 0x10000 - timer.counter
    let r : Timer × Int × Int :=
      if increments ≥ to_overflow then
        let timer := { timer with counter := timer.reload }
        let timer := { timer with overflow := true }
        let overflows := overflows + 1
        let increments := increments - to_overflow
        let to_overflow := 0x10000 - timer.reload
        if increments ≥ to_overflow then
          (timer, overflows + Int.tdiv increments to_overflow, Int.tmod increments to_overflow)
        else
          (timer, overflows, increments)
      else
        (timer, overflows, increments)
    let timer := r.1
    let overflows := r.2.1
    let increments := r.2.2
    let timer := { timer with counter := timer.counter + increments }
    let available := Int.land available timer.mask
    let irq_if :=
      if timer.overflow then
        if control.interrupt then mmio.irq_if ||| (INT_TIMER0 <<< id.val) else mmio.irq_if
      else mmio.irq_if
    let timer := { timer with cycles := available }
    ({ timer := Function.update mmio.timer id timer, irq_if := irq_if }, overflows)

/-- Function `CPU::RunTimers` (lines 77-140): the loop over `id = 0, 1, 2, 3`. -/
def CPU.RunTimers (INT_TIMER0 : Nat) (mmio : Mmio) (cycles : Int) : Mmio :=
  [0, 1, 2, 3].foldl (fun m id => (CPU.RunTimers.body INT_TIMER0 cycles m id).1) mmio

/-- State of the loop of `CPU::RunTimers` after its first `k` iterations
(`id = 0, ..., k - 1`). -/
def CPU.RunTimers.upto (INT_TIMER0 : Nat) (cycles : Int) (mmio : Mmio) (k : Nat) : Mmio :=
  ([0, 1, 2, 3].take k).foldl (fun m id => (CPU.RunTimers.body INT_TIMER0 cycles m id).1) mmio

/-- Number of wraps timer `id` makes during one `CPU::RunTimers` call: the wrap
count of its own loop iteration, run in the state the earlier iterations left. -/
def CPU.RunTimers.wraps (INT_TIMER0 : Nat) (cycles : Int) (mmio : Mmio) (id : Fin 4) : Int :=
  (CPU.RunTimers.body INT_TIMER0 cycles
    (CPU.RunTimers.upto INT_TIMER0 cycles mmio id.val) id).2

/-! ## Auxiliary per-timer descriptions of the two branches of the loop body -/

/-- The record of a timer with its transient `overflow` flag dropped. -/
def Timer.persistent (t : Timer) : Timer := { t with overflow := false }

/-- The bits a timer ORs into `irq_if` in one loop iteration. -/
def irqBit (INT_TIMER0 : Nat) (id : Fin 4) (raise : Bool) : Nat :=
  if raise then INT_TIMER0 <<< id.val else 0

/-- The cascade step of lines 89-95 on one record. -/
def cascadeStep (t : Timer) : Timer :=
  if t.counter = 0xFFFF then { t with counter := t.reload, overflow := true }
  else { t with counter := t.counter + 1, overflow := false }

/-- Ticks available to a free-running timer: `increments` of line 110. -/
def freeTicks (t : Timer) (n : Int) : Int := Int.shiftRight (t.cycles + n) t.shift

/-- Ticks left after the wraps of lines 113-124. -/
def freeRest (t : Timer) (n : Int) : Int :=
  if 0x10000 - t.reload ≤ freeTicks t n - (0x10000 - t.counter) then
    Int.tmod (freeTicks t n - (0x10000 - t.counter)) (0x10000 - t.reload)
  else freeTicks t n - (0x10000 - t.counter)

/-- The free-running step of lines 105-137 on one record. -/
def freeStep (t : Timer) (n : Int) : Timer :=
  if 0x10000 - t.counter ≤ freeTicks t n then
    { t with counter := t.reload + freeRest t n, overflow := true,
             cycles := Int.land (t.cycles + n) t.mask }
  else
    { t with counter := t.counter + freeTicks t n, overflow := false,
             cycles := Int.land (t.cycles + n) t.mask }

/-- Final value of the local `overflows` (lines 106-123). -/
def freeWraps (t : Timer) (n : Int) : Int :=
  if 0x10000 - t.counter ≤ freeTicks t n then
    if 0x10000 - t.reload ≤ freeTicks t n - (0x10000 - t.counter) then
      1 + Int.tdiv (freeTicks t n - (0x10000 - t.counter)) (0x10000 - t.reload)
    else 1
  else 0

/-- Counter reached from `c` after `T` ticks with reload value `r`: the closed
form that lines 110-126 compute (for `r ≤ 0xFFFF`). -/
def closedCounter (c r T : Int) : Int :=
  if T < 0x10000 - c then c + T else r + (T - (0x10000 - c)) % (0x10000 - r)

/-- One tick of a 16-bit counter: plus one, or the reload value from 0xFFFF. -/
def tickOnce (c r : Int) : Int := if c = 0xFFFF then r else c + 1

/-! ## Concrete banks used as inputs -/

/-- A timer record with every field zero. -/
def Timer.zero : Timer := ⟨0, 0, 0, 0, ⟨0, false, false, false⟩, false, 0, 0⟩

/-- The bank right after `ResetTimers`, with an empty interrupt-request word. -/
def resetBank : Mmio := CPU.ResetTimers ⟨fun _ => Timer.zero, 0⟩

/-- Timer 0 is armed at divisor 64, runs 10 cycles, and is then switched to divisor 1
by a second control write: its 10 leftover cycles stay in `cycles`. -/
def staleBank : Mmio :=
  CPU.WriteTimer (CPU.RunTimers 8 (CPU.WriteTimer resetBank 0 2 0x81) 10) 0 2 0x80

/-- Timer 0 armed at divisor 1 with counter 0xFFFE; its reload is then set to 0. -/
def nearWrapBank : Mmio :=
  CPU.WriteTimer (CPU.WriteTimer
    (CPU.WriteTimer (CPU.WriteTimer (CPU.WriteTimer resetBank 0 0 0xFE) 0 1 0xFF) 0 2 0x80)
    0 0 0x00) 0 1 0x00

/-- Timer 0 armed at divisor 1 with counter and reload 0xFFFF and its interrupt on (it
wraps on every cycle); timer 1 armed in cascade mode at counter 0, interrupt on. -/
def chainBank : Mmio :=
  CPU.WriteTimer (CPU.WriteTimer
    (CPU.WriteTimer (CPU.WriteTimer resetBank 0 0 0xFF) 0 1 0xFF) 0 2 0xC0) 1 2 0xC4

/-- Timers 0 and 2 armed free-running at divisor 64 (timer 2 with its interrupt on and
reload 0xFFFF), timers 1 and 3 left disabled. -/
def divisorBank : Mmio :=
  CPU.WriteTimer (CPU.WriteTimer (CPU.WriteTimer
    (CPU.WriteTimer resetBank 0 2 0x81) 2 0 0xFF) 2 1 0xFF) 2 2 0xC1

/-- Timer 0 armed at divisor 1 with counter and reload 0xFFFF, then run for one cycle:
it wraps, and with no cascade timer behind it its `overflow` flag stays set. -/
def wrappedBank : Mmio :=
  CPU.RunTimers 8
    (CPU.WriteTimer (CPU.WriteTimer (CPU.WriteTimer resetBank 0 0 0xFF) 0 1 0xFF) 0 2 0x80) 1

/-- After `wrappedBank`, timer 0 is switched to cascade mode (still enabled) and timer 1
is armed in cascade mode. -/
def cascadeZeroBank : Mmio :=
  CPU.WriteTimer (CPU.WriteTimer wrappedBank 0 2 0x84) 1 2 0x84

/-- After `wrappedBank`, timer 0 is disabled; its `overflow` flag is still set. -/
def disabledBank : Mmio := CPU.WriteTimer wrappedBank 0 2 0x00

/-- After `disabledBank`, timer 1 is armed in cascade mode behind the disabled timer 0. -/
def staleFlagBank : Mmio := CPU.WriteTimer disabledBank 1 2 0x84

/-- Timer 0 armed at divisor 64 with counter 0xFFFE, run for 10 cycles, switched to
divisor 1 by a second control write, and its reload then set to 0: a frequency-0 timer
at 0xFFFE that still carries 10 leftover cycles. -/
def staleNearWrapBank : Mmio :=
  CPU.WriteTimer (CPU.WriteTimer
    (CPU.WriteTimer
      (CPU.RunTimers 8
        (CPU.WriteTimer (CPU.WriteTimer (CPU.WriteTimer resetBank 0 0 0xFE) 0 1 0xFF) 0 2 0x81)
        10)
      0 2 0x80)
    0 0 0x00) 0 1 0x00

/-! ## Reachable states and the invariant they satisfy -/

/-- States reachable from `ResetTimers` by any sequence of `WriteTimer` calls (any timer,
offset and byte) and `RunTimers(n)` calls with `n ≥ 0`. -/
inductive Reachable (INT_TIMER0 : Nat) : Mmio → Prop
  | reset (m : Mmio) : Reachable INT_TIMER0 (CPU.ResetTimers m)
  | write (m : Mmio) (id : Fin 4) (offset : Int) (value : Fin 256) :
      Reachable INT_TIMER0 m → Reachable INT_TIMER0 (CPU.WriteTimer m id offset value)
  | run (m : Mmio) (n : Int) :
      0 ≤ n → Reachable INT_TIMER0 m → Reachable INT_TIMER0 (CPU.RunTimers INT_TIMER0 m n)

/-- The facts every timer record of a reachable state satisfies: counter and reload
are 16-bit values, the divisor parameters come from the tables, and the leftover is
between 0 and the largest mask. -/
def Timer.WellFormed (t : Timer) : Prop :=
  (0 ≤ t.counter ∧ t.counter ≤ 0xFFFF) ∧ (0 ≤ t.reload ∧ t.reload ≤ 0xFFFF) ∧
  t.control.frequency ≤ 3 ∧
  t.shift = g_ticks_shift.getD t.control.frequency 0 ∧
  t.mask = g_ticks_mask.getD t.control.frequency 0 ∧
  (0 ≤ t.cycles ∧ t.cycles ≤ 0x3FF)

/-- Guard of the cascade branch (lines 87-88) at timer `id`'s iteration of a
`RunTimers` call: the timer is enabled, in cascade mode, is not timer 0, and its
predecessor's `overflow` flag is set, so lines 89-102 run and step the counter. -/
def CPU.RunTimers.cascades (INT_TIMER0 : Nat) (cycles : Int) (mmio : Mmio) (id : Fin 4) : Bool :=
  (mmio.timer id).control.enable && (mmio.timer id).control.cascade && decide (id ≠ 0) &&
    ((CPU.RunTimers.upto INT_TIMER0 cycles mmio id.val).timer (id - 1)).overflow

/-! ## The loop body, branch by branch -/

open CPU

theorem pred_ne : ∀ id : Fin 4, id ≠ 0 → id - 1 ≠ id := by decide

theorem body_disabled (I : Nat) (n : Int) (m : Mmio) (id : Fin 4)
    (h : (m.timer id).control.enable = false) :
    RunTimers.body I n m id = (m, 0) := by
  simp [RunTimers.body, h]

theorem body_cascade_idle (I : Nat) (n : Int) (m : Mmio) (id : Fin 4)
    (hc : (m.timer id).control.cascade = true)
    (h : ¬ (id ≠ 0 ∧ (m.timer (id - 1)).overflow = true)) :
    RunTimers.body I n m id = (m, 0) := by
  unfold RunTimers.body
  by_cases he : (m.timer id).control.enable = true
  · simp only [he, hc, h]; simp
  · simp [he]

theorem body_cascade_step (I : Nat) (n : Int) (m : Mmio) (id : Fin 4)
    (he : (m.timer id).control.enable = true)
    (hc : (m.timer id).control.cascade = true)
    (h0 : id ≠ 0) (hp : (m.timer (id - 1)).overflow = true) :
    RunTimers.body I n m id =
      ({ timer := Function.update (Function.update m.timer id (cascadeStep (m.timer id))) (id - 1)
            { m.timer (id - 1) with overflow := false },
         irq_if := m.irq_if ||| irqBit I id
            (decide ((m.timer id).counter = 0xFFFF) && (m.timer id).control.interrupt) },
       if (m.timer id).counter = 0xFFFF then 1 else 0) := by
  have hne : id - 1 ≠ id := pred_ne id h0
  unfold RunTimers.body cascadeStep irqBit
  simp only [he, hc, h0, hp]
  by_cases h1 : (m.timer id).counter = 0xFFFF
  · by_cases h2 : (m.timer id).control.interrupt = true
    · simp [h0, h1, h2, Function.update_noteq hne]
    · simp [h0, h1, h2, Function.update_noteq hne]
  · simp [h0, h1, Function.update_noteq hne]

theorem body_free (I : Nat) (n : Int) (m : Mmio) (id : Fin 4)
    (he : (m.timer id).control.enable = true)
    (hc : (m.timer id).control.cascade = false) :
    RunTimers.body I n m id =
      ({ timer := Function.update m.timer id (freeStep (m.timer id) n),
         irq_if := m.irq_if ||| irqBit I id
            (decide (0x10000 - (m.timer id).counter ≤ freeTicks (m.timer id) n) &&
              (m.timer id).control.interrupt) },
       freeWraps (m.timer id) n) := by
  unfold RunTimers.body freeStep freeWraps freeRest irqBit freeTicks
  simp only [he, hc]
  by_cases h1 : 0x10000 - (m.timer id).counter ≤ Int.shiftRight ((m.timer id).cycles + n) (m.timer id).shift
  · by_cases h2 : 0x10000 - (m.timer id).reload ≤ Int.shiftRight ((m.timer id).cycles + n) (m.timer id).shift - (0x10000 - (m.timer id).counter)
    · by_cases h3 : (m.timer id).control.interrupt = true
      · simp [h1, h2, h3]
      · simp [h1, h2, h3]
    · by_cases h3 : (m.timer id).control.interrupt = true
      · simp [h1, h2, h3]
      · simp [h1, h2, h3]
  · simp [h1]

theorem body_timer_far (I : Nat) (n : Int) (m : Mmio) (id j : Fin 4)
    (hj : j ≠ id) (hp : j ≠ id - 1) :
    (RunTimers.body I n m id).1.timer j = m.timer j := by
  by_cases he : (m.timer id).control.enable = true
  · by_cases hc : (m.timer id).control.cascade = true
    · by_cases h : id ≠ 0 ∧ (m.timer (id - 1)).overflow = true
      · rw [body_cascade_step I n m id he hc h.1 h.2]
        simp [Function.update_noteq hj, Function.update_noteq hp]
      · rw [body_cascade_idle I n m id hc h]
    · rw [body_free I n m id he (by simpa using hc)]
      simp [Function.update_noteq hj]
  · rw [body_disabled I n m id (by simpa using he)]

theorem body_timer_zero (I : Nat) (n : Int) (m : Mmio) (j : Fin 4) (hj : j ≠ 0) :
    (RunTimers.body I n m 0).1.timer j = m.timer j := by
  by_cases he : (m.timer 0).control.enable = true
  · by_cases hc : (m.timer 0).control.cascade = true
    · rw [body_cascade_idle I n m 0 hc (by simp)]
    · rw [body_free I n m 0 he (by simpa using hc)]
      simp [Function.update_noteq hj]
  · rw [body_disabled I n m 0 (by simpa using he)]

theorem body_timer_persistent (I : Nat) (n : Int) (m : Mmio) (id j : Fin 4) (hj : j ≠ id) :
    ((RunTimers.body I n m id).1.timer j).persistent = (m.timer j).persistent := by
  by_cases he : (m.timer id).control.enable = true
  · by_cases hc : (m.timer id).control.cascade = true
    · by_cases h : id ≠ 0 ∧ (m.timer (id - 1)).overflow = true
      · rw [body_cascade_step I n m id he hc h.1 h.2]
        by_cases hp : j = id - 1
        · subst hp
          simp [Timer.persistent]
        · simp [Function.update_noteq hj, Function.update_noteq hp]
      · rw [body_cascade_idle I n m id hc h]
    · rw [body_free I n m id he (by simpa using hc)]
      simp [Function.update_noteq hj]
  · rw [body_disabled I n m id (by simpa using he)]

theorem cascadeStep_control (t : Timer) : (cascadeStep t).control = t.control := by
  unfold cascadeStep; split <;> rfl

theorem freeStep_control (t : Timer) (n : Int) : (freeStep t n).control = t.control := by
  unfold freeStep; split <;> rfl

theorem body_control (I : Nat) (n : Int) (m : Mmio) (id j : Fin 4) :
    ((RunTimers.body I n m id).1.timer j).control = (m.timer j).control := by
  by_cases hj : j = id
  · subst hj
    by_cases he : (m.timer j).control.enable = true
    · by_cases hc : (m.timer j).control.cascade = true
      · by_cases h : j ≠ 0 ∧ (m.timer (j - 1)).overflow = true
        · rw [body_cascade_step I n m j he hc h.1 h.2]
          simp [Function.update_noteq (pred_ne j h.1).symm, cascadeStep_control]
        · rw [body_cascade_idle I n m j hc h]
      · rw [body_free I n m j he (by simpa using hc)]
        simp [freeStep_control]
    · rw [body_disabled I n m j (by simpa using he)]
  · have := congrArg Timer.control (body_timer_persistent I n m id j hj)
    simpa [Timer.persistent] using this

/-- A positive wrap count of an iteration leaves the timer's `overflow` set. -/
theorem body_wraps_overflow (I : Nat) (n : Int) (m : Mmio) (id : Fin 4)
    (h : 0 < (RunTimers.body I n m id).2) :
    ((RunTimers.body I n m id).1.timer id).overflow = true := by
  by_cases he : (m.timer id).control.enable = true
  · by_cases hc : (m.timer id).control.cascade = true
    · by_cases hp : id ≠ 0 ∧ (m.timer (id - 1)).overflow = true
      · rw [body_cascade_step I n m id he hc hp.1 hp.2] at h ⊢
        by_cases h1 : (m.timer id).counter = 0xFFFF
        · simp [Function.update_noteq (pred_ne id hp.1).symm, cascadeStep, h1]
        · simp [h1] at h
      · rw [body_cascade_idle I n m id hc hp] at h
        simp at h
    · rw [body_free I n m id he (by simpa using hc)] at h ⊢
      by_cases h1 : 0x10000 - (m.timer id).counter ≤ freeTicks (m.timer id) n
      · simp [freeStep, h1]
      · simp [freeWraps, h1] at h
  · rw [body_disabled I n m id (by simpa using he)] at h
    simp at h

theorem irqBit_false (I : Nat) (id : Fin 4) : irqBit I id false = 0 := rfl

theorem freeWraps_pos (t : Timer) (n : Int) (hr : t.reload ≤ 0xFFFF) :
    0 < freeWraps t n ↔ 0x10000 - t.counter ≤ freeTicks t n := by
  unfold freeWraps
  generalize freeTicks t n = T
  split_ifs with h1 h2
  · have : 0 ≤ Int.tdiv (T - (0x10000 - t.counter)) (0x10000 - t.reload) := by
      rw [Int.tdiv_eq_ediv (by omega) (by omega)]
      exact Int.ediv_nonneg (by omega) (by omega)
    constructor
    · intro _; exact h1
    · intro _; omega
  · simp [h1]
  · simp [h1]

/-- What one iteration does to `irq_if`. -/
theorem body_irq (I : Nat) (n : Int) (m : Mmio) (id : Fin 4)
    (hr : (m.timer id).control.enable = true → (m.timer id).control.cascade = false →
      (m.timer id).reload ≤ 0xFFFF) :
    (RunTimers.body I n m id).1.irq_if = m.irq_if ||| irqBit I id
      ((m.timer id).control.enable && (m.timer id).control.interrupt &&
        decide (0 < (RunTimers.body I n m id).2)) := by
  by_cases he : (m.timer id).control.enable = true
  · by_cases hc : (m.timer id).control.cascade = true
    · by_cases hp : id ≠ 0 ∧ (m.timer (id - 1)).overflow = true
      · rw [body_cascade_step I n m id he hc hp.1 hp.2]
        by_cases h1 : (m.timer id).counter = 0xFFFF
        · simp [h1, he]
        · simp [h1, he]
      · rw [body_cascade_idle I n m id hc hp]
        simp [irqBit_false]
    · rw [body_free I n m id he (by simpa using hc)]
      simp only [freeWraps_pos _ _ (hr he (by simpa using hc)), he, Bool.true_and]
      rw [Bool.and_comm]
  · rw [body_disabled I n m id (by simpa using he)]
    simp [he, irqBit_false]

/-! ## Arithmetic of the closed form -/

theorem freeStep_counter (t : Timer) (n : Int) (hr : t.reload ≤ 0xFFFF) :
    (freeStep t n).counter = closedCounter t.counter t.reload (freeTicks t n) := by
  unfold freeStep closedCounter freeRest
  generalize freeTicks t n = T
  split_ifs with h1 h2 h3 h4 h5 <;> simp
  · omega
  · exact Int.tmod_eq_emod (by omega) (by omega)
  · omega
  · exact (Int.emod_eq_of_lt (by omega) (by omega)).symm
  · omega

theorem freeStep_cycles (t : Timer) (n : Int) :
    (freeStep t n).cycles = Int.land (t.cycles + n) t.mask := by
  unfold freeStep; split <;> rfl

theorem freeStep_overflow (t : Timer) (n : Int) :
    (freeStep t n).overflow = decide (0x10000 - t.counter ≤ freeTicks t n) := by
  unfold freeStep; split <;> simp [*]

theorem freeStep_frame (t : Timer) (n : Int) :
    (freeStep t n).reload = t.reload ∧ (freeStep t n).shift = t.shift ∧
    (freeStep t n).mask = t.mask ∧ (freeStep t n).id = t.id := by
  unfold freeStep; split <;> simp

theorem freeStep_persistent (t u : Timer) (n : Int) (h : t.persistent = u.persistent) :
    freeStep t n = freeStep u n := by
  rcases t with ⟨tid, k, r, c, ctl, o, sh, mk⟩
  rcases u with ⟨tid', k', r', c', ctl', o', sh', mk'⟩
  simp only [Timer.persistent, Timer.mk.injEq] at h
  obtain ⟨rfl, rfl, rfl, rfl, rfl, -, rfl, rfl⟩ := h
  simp [freeStep, freeTicks, freeRest]

theorem closedCounter_zero (c r : Int) (hc : c ≤ 0xFFFF) : closedCounter c r 0 = c := by
  unfold closedCounter
  rw [if_pos (by omega)]; simp

theorem closedCounter_one (c r : Int) (hc : c ≤ 0xFFFF) :
    closedCounter c r 1 = tickOnce c r := by
  unfold closedCounter tickOnce
  split_ifs with h1 h2 h2
  · omega
  · rfl
  · subst h2; simp
  · omega

theorem closedCounter_range (c r T : Int) (hc : 0 ≤ c ∧ c ≤ 0xFFFF) (hr : 0 ≤ r ∧ r ≤ 0xFFFF)
    (hT : 0 ≤ T) : 0 ≤ closedCounter c r T ∧ closedCounter c r T ≤ 0xFFFF := by
  unfold closedCounter
  split_ifs with h
  · omega
  · have h1 := Int.emod_nonneg (T - (0x10000 - c)) (show (0x10000 - r : Int) ≠ 0 by omega)
    have h2 := Int.emod_lt_of_pos (T - (0x10000 - c)) (show (0 : Int) < 0x10000 - r by omega)
    omega

theorem closedCounter_add (c r T U : Int) (hr : 0 ≤ r ∧ r ≤ 0xFFFF) (hU : 0 ≤ U) :
    closedCounter (closedCounter c r T) r U = closedCounter c r (T + U) := by
  have hP : (0 : Int) < 0x10000 - r := by omega
  by_cases h1 : T < 0x10000 - c
  · have e1 : closedCounter c r T = c + T := by unfold closedCounter; rw [if_pos h1]
    rw [e1]
    unfold closedCounter
    by_cases h2 : T + U < 0x10000 - c
    · rw [if_pos (by omega), if_pos h2]; omega
    · rw [if_neg (by omega), if_neg h2]
      congr 2; omega
  · have e1 : closedCounter c r T = r + (T - (0x10000 - c)) % (0x10000 - r) := by
      unfold closedCounter; rw [if_neg h1]
    have hx0 := Int.emod_nonneg (T - (0x10000 - c)) (show (0x10000 - r : Int) ≠ 0 by omega)
    have hx1 := Int.emod_lt_of_pos (T - (0x10000 - c)) hP
    rw [e1]
    generalize hx : (T - (0x10000 - c)) % (0x10000 - r) = x at *
    have key : (T + U - (0x10000 - c)) % (0x10000 - r) = (x + U) % (0x10000 - r) := by
      rw [← hx, Int.emod_add_emod]; congr 1; omega
    unfold closedCounter
    rw [if_neg (show ¬ (T + U < 0x10000 - c) by omega), key]
    by_cases h2 : U < 0x10000 - (r + x)
    · rw [if_pos h2, Int.emod_eq_of_lt (by omega) (by omega)]; omega
    · rw [if_neg h2]
      have : x + U = (U - (0x10000 - (r + x))) + (0x10000 - r) := by omega
      rw [this, Int.add_emod_self]

/-! ## A free-running timer through a whole `RunTimers` call -/

theorem foldl_body_persistent (I : Nat) (n : Int) (id : Fin 4) (l : List (Fin 4)) :
    ∀ (m : Mmio), id ∉ l →
      ((l.foldl (fun m id => (RunTimers.body I n m id).1) m).timer id).persistent =
        (m.timer id).persistent := by
  induction l with
  | nil => intro m _; rfl
  | cons a l ih =>
    intro m h
    simp only [List.mem_cons, not_or] at h
    rw [List.foldl_cons, ih _ h.2, body_timer_persistent I n m a id h.1]

theorem loop_split : ∀ id : Fin 4, ∃ l₁ l₂ : List (Fin 4),
    ([0, 1, 2, 3] : List (Fin 4)) = l₁ ++ id :: l₂ ∧ id ∉ l₁ ∧ id ∉ l₂ := by
  intro id
  fin_cases id
  · exact ⟨[], [1, 2, 3], rfl, by decide, by decide⟩
  · exact ⟨[0], [2, 3], rfl, by decide, by decide⟩
  · exact ⟨[0, 1], [3], rfl, by decide, by decide⟩
  · exact ⟨[0, 1, 2], [], rfl, by decide, by decide⟩

theorem persistent_control (t u : Timer) (h : t.persistent = u.persistent) :
    t.control = u.control := by
  have := congrArg Timer.control h
  simpa [Timer.persistent] using this

/-- A free-running enabled timer leaves `RunTimers` as `freeStep` leaves it, up
to the `overflow` flag (which a cascading successor may consume). -/
theorem run_free_timer (I : Nat) (n : Int) (m : Mmio) (id : Fin 4)
    (he : (m.timer id).control.enable = true)
    (hc : (m.timer id).control.cascade = false) :
    ((RunTimers I m n).timer id).persistent = (freeStep (m.timer id) n).persistent := by
  obtain ⟨l₁, l₂, hl, h1, h2⟩ := loop_split id
  unfold RunTimers
  rw [hl, List.foldl_append, List.foldl_cons, foldl_body_persistent I n id l₂ _ h2]
  have hp := foldl_body_persistent I n id l₁ m h1
  have hctl := persistent_control _ _ hp
  rw [body_free I n _ id (by rw [hctl]; exact he) (by rw [hctl]; exact hc)]
  simp only [Function.update_same]
  rw [freeStep_persistent _ _ n hp]

/-- Every timer keeps its control flags, reload, shift, mask and id through `RunTimers`;
a disabled timer keeps its counter and cycles as well. -/
theorem run_control (I : Nat) (n : Int) (m : Mmio) (j : Fin 4) :
    ((RunTimers I m n).timer j).control = (m.timer j).control := by
  unfold RunTimers
  simp only [List.foldl_cons, List.foldl_nil, body_control]

/-! ## Prefixes of the loop -/

theorem upto_zero (I : Nat) (n : Int) (m : Mmio) : RunTimers.upto I n m 0 = m := rfl

theorem upto_one (I : Nat) (n : Int) (m : Mmio) :
    RunTimers.upto I n m 1 = (RunTimers.body I n m 0).1 := rfl

theorem upto_two (I : Nat) (n : Int) (m : Mmio) :
    RunTimers.upto I n m 2 = (RunTimers.body I n (RunTimers.upto I n m 1) 1).1 := rfl

theorem upto_three (I : Nat) (n : Int) (m : Mmio) :
    RunTimers.upto I n m 3 = (RunTimers.body I n (RunTimers.upto I n m 2) 2).1 := rfl

theorem run_eq_upto (I : Nat) (n : Int) (m : Mmio) :
    RunTimers I m n = (RunTimers.body I n (RunTimers.upto I n m 3) 3).1 := rfl

/-- The iterations before a timer's own leave its record untouched. -/
theorem upto_timer_self (I : Nat) (n : Int) (m : Mmio) (id : Fin 4) :
    (RunTimers.upto I n m id.val).timer id = m.timer id := by
  fin_cases id
  · rfl
  · show (RunTimers.upto I n m 1).timer 1 = m.timer 1
    rw [upto_one, body_timer_zero I n m 1 (by decide)]
  · show (RunTimers.upto I n m 2).timer 2 = m.timer 2
    rw [upto_two, body_timer_far I n _ 1 2 (by decide) (by decide), upto_one,
      body_timer_zero I n m 2 (by decide)]
  · show (RunTimers.upto I n m 3).timer 3 = m.timer 3
    rw [upto_three, body_timer_far I n _ 2 3 (by decide) (by decide), upto_two,
      body_timer_far I n _ 1 3 (by decide) (by decide), upto_one,
      body_timer_zero I n m 3 (by decide)]

theorem int_shiftRight_zero (x : Int) : Int.shiftRight x 0 = x := by
  cases x <;> simp [Int.shiftRight]

theorem int_land_zero (x : Int) : Int.land x 0 = 0 := by
  cases x <;> simp [Int.land, Nat.ldiff]

/-- Fields of a free-running enabled timer when `RunTimers` returns. -/
theorem run_free_fields (I : Nat) (n : Int) (m : Mmio) (id : Fin 4)
    (he : (m.timer id).control.enable = true)
    (hc : (m.timer id).control.cascade = false)
    (hr : (m.timer id).reload ≤ 0xFFFF) :
    ((RunTimers I m n).timer id).counter =
        closedCounter (m.timer id).counter (m.timer id).reload (freeTicks (m.timer id) n) ∧
    ((RunTimers I m n).timer id).cycles = Int.land ((m.timer id).cycles + n) (m.timer id).mask ∧
    ((RunTimers I m n).timer id).reload = (m.timer id).reload ∧
    ((RunTimers I m n).timer id).shift = (m.timer id).shift ∧
    ((RunTimers I m n).timer id).mask = (m.timer id).mask ∧
    ((RunTimers I m n).timer id).control = (m.timer id).control := by
  have hp := run_free_timer I n m id he hc
  have hf := freeStep_frame (m.timer id) n
  refine ⟨?_, ?_, ?_, ?_, ?_, run_control I n m id⟩
  · have := congrArg Timer.counter hp
    simp only [Timer.persistent] at this
    rw [this, freeStep_counter _ _ hr]
  · have := congrArg Timer.cycles hp
    simp only [Timer.persistent] at this
    rw [this, freeStep_cycles]
  · have := congrArg Timer.reload hp
    simp only [Timer.persistent] at this
    rw [this, hf.1]
  · have := congrArg Timer.shift hp
    simp only [Timer.persistent] at this
    rw [this, hf.2.1]
  · have := congrArg Timer.mask hp
    simp only [Timer.persistent] at this
    rw [this, hf.2.2.1]

/-- Tick by tick: `j` calls of `RunTimers(1)` on a divisor-1 timer with no leftover. -/
theorem iterate_ticks (I : Nat) (id : Fin 4) (r : Int) (hr : 0 ≤ r ∧ r ≤ 0xFFFF) (j : Nat) :
    ∀ (m : Mmio), (m.timer id).control.enable = true → (m.timer id).control.cascade = false →
      (m.timer id).shift = 0 → (m.timer id).mask = 0 → (m.timer id).cycles = 0 →
      (m.timer id).reload = r → (m.timer id).counter ≤ 0xFFFF →
      (((fun s => RunTimers I s 1)^[j] m).timer id).counter =
        closedCounter (m.timer id).counter r (j : Int) := by
  induction j with
  | zero =>
    intro m _ _ _ _ _ _ hc
    simp [closedCounter_zero _ _ hc]
  | succ j ih =>
    intro m he hc hs hm hk hrl hcr
    have f := run_free_fields I 1 m id he hc (by rw [hrl]; exact hr.2)
    have hT : freeTicks (m.timer id) 1 = 1 := by
      simp [freeTicks, hs, hk, int_shiftRight_zero]
    rw [hT, hrl] at f
    have hc1 : ((RunTimers I m 1).timer id).counter ≤ 0xFFFF := by
      rw [f.1, closedCounter_one _ _ hcr]
      unfold tickOnce; split <;> omega
    rw [Function.iterate_succ_apply,
      ih (RunTimers I m 1) (by rw [f.2.2.2.2.2]; exact he) (by rw [f.2.2.2.2.2]; exact hc)
        (by rw [f.2.2.2.1]; exact hs) (by rw [f.2.2.2.2.1]; exact hm)
        (by rw [f.2.1, hm, int_land_zero]) f.2.2.1 hc1,
      f.1, closedCounter_add _ _ _ _ hr (by omega)]
    congr 1
    push_cast; ring

/-! ## The interrupt-request word through a whole call -/

/-- The bits timer `id` ORs into `irq_if` during `RunTimers`: its bit when it is
enabled, has `interrupt` set and wrapped at least once, nothing otherwise. -/
theorem run_irq (I : Nat) (n : Int) (m : Mmio)
    (hr : ∀ j, (m.timer j).control.enable = true → (m.timer j).control.cascade = false →
      (m.timer j).reload ≤ 0xFFFF) :
    (RunTimers I m n).irq_if =
      m.irq_if |||
        irqBit I 0 ((m.timer 0).control.enable && (m.timer 0).control.interrupt &&
          decide (0 < RunTimers.wraps I n m 0)) |||
        irqBit I 1 ((m.timer 1).control.enable && (m.timer 1).control.interrupt &&
          decide (0 < RunTimers.wraps I n m 1)) |||
        irqBit I 2 ((m.timer 2).control.enable && (m.timer 2).control.interrupt &&
          decide (0 < RunTimers.wraps I n m 2)) |||
        irqBit I 3 ((m.timer 3).control.enable && (m.timer 3).control.interrupt &&
          decide (0 < RunTimers.wraps I n m 3)) := by
  have h0 := upto_timer_self I n m 0
  have h1 := upto_timer_self I n m 1
  have h2 := upto_timer_self I n m 2
  have h3 := upto_timer_self I n m 3
  simp only [Fin.val_zero, Fin.val_one, Fin.val_two] at h0 h1 h2
  have h3' : (RunTimers.upto I n m 3).timer 3 = m.timer 3 := h3
  rw [run_eq_upto, body_irq I n _ 3 (by rw [h3']; exact hr 3), h3',
    upto_three, body_irq I n _ 2 (by rw [h2]; exact hr 2), h2,
    upto_two, body_irq I n _ 1 (by rw [h1]; exact hr 1), h1,
    upto_one, body_irq I n _ 0 (hr 0)]
  rfl

theorem wraps_free (I : Nat) (n : Int) (m : Mmio) (id : Fin 4)
    (he : (m.timer id).control.enable = true)
    (hc : (m.timer id).control.cascade = false) :
    RunTimers.wraps I n m id = freeWraps (m.timer id) n := by
  have hs := upto_timer_self I n m id
  unfold RunTimers.wraps
  rw [body_free I n _ id (by rw [hs]; exact he) (by rw [hs]; exact hc), hs]

/-! ## Divisor arithmetic -/

theorem int_shiftRight_eq (x : Int) (s : Nat) : Int.shiftRight x s = x / 2 ^ s := by
  have := Int.shiftRight_eq_div_pow x s
  simpa using this

theorem int_land_mask (x : Int) (s : Nat) (hx : 0 ≤ x) : Int.land x (2 ^ s - 1) = x % 2 ^ s := by
  obtain ⟨a, rfl⟩ := Int.eq_ofNat_of_zero_le hx
  have h1 : ((2 : Int) ^ s - 1) = ((2 ^ s - 1 : Nat) : Int) := by
    have : 1 ≤ 2 ^ s := Nat.one_le_two_pow
    push_cast [Nat.cast_sub this]
    rfl
  rw [h1]
  show ((a &&& (2 ^ s - 1) : Nat) : Int) = _
  rw [Nat.and_pow_two_sub_one_eq_mod]
  push_cast
  rfl

theorem ticks_split (x b q : Int) (hq : 0 < q) : x / q + (x % q + b) / q = (x + b) / q := by
  have h : x + b = (x % q + b) + q * (x / q) := by
    have := Int.emod_add_ediv x q
    omega
  rw [h, Int.add_mul_ediv_left _ _ (by omega : q ≠ 0)]
  omega

theorem two_pow_pos_int (s : Nat) : (0 : Int) < 2 ^ s := by positivity

theorem body_reload (I : Nat) (n : Int) (m : Mmio) (id j : Fin 4) :
    ((RunTimers.body I n m id).1.timer j).reload = (m.timer j).reload := by
  by_cases hj : j = id
  · subst hj
    by_cases he : (m.timer j).control.enable = true
    · by_cases hc : (m.timer j).control.cascade = true
      · by_cases h : j ≠ 0 ∧ (m.timer (j - 1)).overflow = true
        · rw [body_cascade_step I n m j he hc h.1 h.2]
          simp only [Function.update_noteq (pred_ne j h.1).symm, Function.update_same]
          unfold cascadeStep; split <;> rfl
        · rw [body_cascade_idle I n m j hc h]
      · rw [body_free I n m j he (by simpa using hc)]
        simp [(freeStep_frame _ _).1]
    · rw [body_disabled I n m j (by simpa using he)]
  · have := congrArg Timer.reload (body_timer_persistent I n m id j hj)
    simpa [Timer.persistent] using this

theorem run_reload (I : Nat) (n : Int) (m : Mmio) (j : Fin 4) :
    ((RunTimers I m n).timer j).reload = (m.timer j).reload := by
  unfold RunTimers
  simp only [List.foldl_cons, List.foldl_nil, body_reload]

/-! ## Two batches against one -/

/-- A free-running timer through two consecutive calls and through one call of
the summed length: same counter, same leftover, and it wraps in the long call
exactly when it wraps in one of the two short ones. -/
theorem two_batch (I : Nat) (m : Mmio) (j : Fin 4) (a b : Int)
    (he : (m.timer j).control.enable = true)
    (hc : (m.timer j).control.cascade = false)
    (hrr : 0 ≤ (m.timer j).reload ∧ (m.timer j).reload ≤ 0xFFFF)
    (hk : 0 ≤ (m.timer j).cycles)
    (hm : (m.timer j).mask = 2 ^ (m.timer j).shift - 1)
    (ha : 0 ≤ a) (hb : 0 ≤ b) :
    ((RunTimers I (RunTimers I m a) b).timer j).counter =
        ((RunTimers I m (a + b)).timer j).counter ∧
    ((RunTimers I (RunTimers I m a) b).timer j).cycles =
        ((RunTimers I m (a + b)).timer j).cycles ∧
    decide (0 < RunTimers.wraps I (a + b) m j) =
      (decide (0 < RunTimers.wraps I a m j) ||
        decide (0 < RunTimers.wraps I b (RunTimers I m a) j)) := by
  have f := run_free_fields I a m j he hc hrr.2
  have g := run_free_fields I (a + b) m j he hc hrr.2
  have he1 : ((RunTimers I m a).timer j).control.enable = true := by rw [f.2.2.2.2.2]; exact he
  have hc1 : ((RunTimers I m a).timer j).control.cascade = false := by rw [f.2.2.2.2.2]; exact hc
  have hr1 : ((RunTimers I m a).timer j).reload ≤ 0xFFFF := by rw [f.2.2.1]; exact hrr.2
  have f2 := run_free_fields I b (RunTimers I m a) j he1 hc1 hr1
  have hq := two_pow_pos_int (m.timer j).shift
  have hT2 : freeTicks ((RunTimers I m a).timer j) b =
      (((m.timer j).cycles + a) % 2 ^ (m.timer j).shift + b) / 2 ^ (m.timer j).shift := by
    unfold freeTicks
    rw [f.2.1, f.2.2.2.1, hm, int_land_mask _ _ (by omega), int_shiftRight_eq]
  have hT1 : freeTicks (m.timer j) a = ((m.timer j).cycles + a) / 2 ^ (m.timer j).shift := by
    unfold freeTicks; rw [int_shiftRight_eq]
  have hT : freeTicks (m.timer j) (a + b) =
      freeTicks (m.timer j) a + freeTicks ((RunTimers I m a).timer j) b := by
    rw [hT1, hT2, ticks_split _ _ _ hq]
    unfold freeTicks; rw [int_shiftRight_eq, add_assoc]
  have hx := Int.emod_nonneg ((m.timer j).cycles + a) (ne_of_gt hq)
  have hU : 0 ≤ freeTicks ((RunTimers I m a).timer j) b := by
    rw [hT2]; exact Int.ediv_nonneg (by omega) hq.le
  have hT1n : 0 ≤ freeTicks (m.timer j) a := by
    rw [hT1]; exact Int.ediv_nonneg (by omega) hq.le
  refine ⟨?_, ?_, ?_⟩
  · rw [f2.1, g.1, f.1, f.2.2.1, hT, closedCounter_add _ _ _ _ hrr hU]
  · rw [f2.2.1, g.2.1, f.2.1, f.2.2.2.2.1, hm,
      int_land_mask ((m.timer j).cycles + a) _ (by omega),
      int_land_mask (((m.timer j).cycles + a) % 2 ^ (m.timer j).shift + b) _ (by omega),
      int_land_mask ((m.timer j).cycles + (a + b)) _ (by omega), Int.emod_add_emod, add_assoc]
  · rw [wraps_free I _ m j he hc, wraps_free I _ m j he hc, wraps_free I _ _ j he1 hc1]
    have e1 := freeWraps_pos (m.timer j) (a + b) hrr.2
    have e2 := freeWraps_pos (m.timer j) a hrr.2
    have e3 := freeWraps_pos ((RunTimers I m a).timer j) b hr1
    rw [f.1] at e3
    rw [hT] at e1
    generalize freeTicks (m.timer j) a = T at *
    generalize freeTicks ((RunTimers I m a).timer j) b = U at *
    have key : (0x10000 - (m.timer j).counter ≤ T + U) ↔
        (0x10000 - (m.timer j).counter ≤ T ∨
          0x10000 - closedCounter (m.timer j).counter (m.timer j).reload T ≤ U) := by
      unfold closedCounter
      have h1 := Int.emod_nonneg (T - (0x10000 - (m.timer j).counter))
        (show (0x10000 - (m.timer j).reload : Int) ≠ 0 by omega)
      split_ifs with h
      · constructor
        · intro h'; right; omega
        · rintro (h' | h') <;> omega
      · constructor
        · intro _; left; omega
        · intro _; omega
    have : (0 < freeWraps (m.timer j) (a + b)) ↔
        (0 < freeWraps (m.timer j) a ∨ 0 < freeWraps ((RunTimers I m a).timer j) b) := by
      rw [e1, e2, e3, key]
    by_cases hA : 0 < freeWraps (m.timer j) a <;>
      by_cases hB : 0 < freeWraps ((RunTimers I m a).timer j) b <;>
      simp [hA, hB, this]

theorem irqBit_or (I : Nat) (j : Fin 4) (x y : Bool) :
    irqBit I j (x || y) = irqBit I j x ||| irqBit I j y := by
  cases x <;> cases y <;> simp [irqBit]

theorem two_batch_bit (I : Nat) (m : Mmio) (j : Fin 4) (a b : Int)
    (h : (m.timer j).control.enable = true →
      (m.timer j).control.cascade = false ∧
      (0 ≤ (m.timer j).reload ∧ (m.timer j).reload ≤ 0xFFFF) ∧
      0 ≤ (m.timer j).cycles ∧ (m.timer j).mask = 2 ^ (m.timer j).shift - 1)
    (ha : 0 ≤ a) (hb : 0 ≤ b) :
    irqBit I j ((m.timer j).control.enable && (m.timer j).control.interrupt &&
        decide (0 < RunTimers.wraps I (a + b) m j)) =
      irqBit I j ((m.timer j).control.enable && (m.timer j).control.interrupt &&
        decide (0 < RunTimers.wraps I a m j)) |||
      irqBit I j (((RunTimers I m a).timer j).control.enable &&
        ((RunTimers I m a).timer j).control.interrupt &&
        decide (0 < RunTimers.wraps I b (RunTimers I m a) j)) := by
  rw [run_control, ← irqBit_or]
  by_cases he : (m.timer j).control.enable = true
  · obtain ⟨hc, hrr, hk, hm⟩ := h he
    rw [(two_batch I m j a b he hc hrr hk hm ha hb).2.2]
    cases (m.timer j).control.enable <;> cases (m.timer j).control.interrupt <;> simp
  · simp [he]

theorem nat_or_shuffle (x a0 a1 a2 a3 b0 b1 b2 b3 : Nat) :
    (x ||| a0 ||| a1 ||| a2 ||| a3) ||| b0 ||| b1 ||| b2 ||| b3 =
      x ||| (a0 ||| b0) ||| (a1 ||| b1) ||| (a2 ||| b2) ||| (a3 ||| b3) := by
  ac_rfl

/-- Two consecutive calls and one call of the summed length leave the same
interrupt-request word, when every enabled timer is free-running. -/
theorem two_batch_irq (I : Nat) (m : Mmio) (a b : Int)
    (h : ∀ j, (m.timer j).control.enable = true →
      (m.timer j).control.cascade = false ∧
      (0 ≤ (m.timer j).reload ∧ (m.timer j).reload ≤ 0xFFFF) ∧
      0 ≤ (m.timer j).cycles ∧ (m.timer j).mask = 2 ^ (m.timer j).shift - 1)
    (ha : 0 ≤ a) (hb : 0 ≤ b) :
    (RunTimers I (RunTimers I m a) b).irq_if = (RunTimers I m (a + b)).irq_if := by
  have hr : ∀ j, (m.timer j).control.enable = true → (m.timer j).control.cascade = false →
      (m.timer j).reload ≤ 0xFFFF := fun j he _ => (h j he).2.1.2
  have hr1 : ∀ j, ((RunTimers I m a).timer j).control.enable = true →
      ((RunTimers I m a).timer j).control.cascade = false →
      ((RunTimers I m a).timer j).reload ≤ 0xFFFF := by
    intro j he _
    rw [run_control] at he
    rw [run_reload]
    exact (h j he).2.1.2
  rw [run_irq I b _ hr1, run_irq I a m hr, run_irq I (a + b) m hr,
    two_batch_bit I m 0 a b (h 0) ha hb, two_batch_bit I m 1 a b (h 1) ha hb,
    two_batch_bit I m 2 a b (h 2) ha hb, two_batch_bit I m 3 a b (h 3) ha hb]
  exact nat_or_shuffle _ _ _ _ _ _ _ _ _

/-! ## Around a timer's own iteration -/

theorem nat_or_and_self (a b : Nat) : (a ||| b) &&& a = a := by
  apply Nat.eq_of_testBit_eq
  intro i
  simp only [Nat.testBit_and, Nat.testBit_or]
  cases a.testBit i <;> cases b.testBit i <;> rfl

theorem nat_or_and_keep (a b y : Nat) (h : a &&& y = y) : (a ||| b) &&& y = y := by
  apply Nat.eq_of_testBit_eq
  intro i
  have hi := congrArg (fun z => Nat.testBit z i) h
  simp only [Nat.testBit_and, Nat.testBit_or] at hi ⊢
  cases hy : y.testBit i <;> simp [hy] at hi ⊢
  simp [hi]

theorem body_irq_keeps (I : Nat) (n : Int) (m : Mmio) (id : Fin 4) (y : Nat)
    (h : m.irq_if &&& y = y) : (RunTimers.body I n m id).1.irq_if &&& y = y := by
  by_cases he : (m.timer id).control.enable = true
  · by_cases hc : (m.timer id).control.cascade = true
    · by_cases hp : id ≠ 0 ∧ (m.timer (id - 1)).overflow = true
      · rw [body_cascade_step I n m id he hc hp.1 hp.2]
        exact nat_or_and_keep _ _ _ h
      · rw [body_cascade_idle I n m id hc hp]; exact h
    · rw [body_free I n m id he (by simpa using hc)]
      exact nat_or_and_keep _ _ _ h
  · rw [body_disabled I n m id (by simpa using he)]; exact h

/-- The state before the iteration of timer `id ≥ 1` is the one its predecessor's
iteration produced. -/
theorem upto_pred (I : Nat) (n : Int) (m : Mmio) (id : Fin 4) (h0 : id ≠ 0) :
    RunTimers.upto I n m id.val =
      (RunTimers.body I n (RunTimers.upto I n m (id - 1).val) (id - 1)).1 := by
  fin_cases id
  · exact absurd rfl h0
  · rfl
  · rfl
  · rfl

/-- What the iterations after timer `id`'s own still change: nothing of timer `id - 1`,
at most the `overflow` flag of timer `id`, and no bit of `irq_if` is cleared. -/
theorem after_step (I : Nat) (n : Int) (m : Mmio) (id : Fin 4) (h0 : id ≠ 0) :
    (RunTimers I m n).timer (id - 1) =
      (RunTimers.body I n (RunTimers.upto I n m id.val) id).1.timer (id - 1) ∧
    ((RunTimers I m n).timer id).persistent =
      ((RunTimers.body I n (RunTimers.upto I n m id.val) id).1.timer id).persistent ∧
    ∀ y, (RunTimers.body I n (RunTimers.upto I n m id.val) id).1.irq_if &&& y = y →
      (RunTimers I m n).irq_if &&& y = y := by
  fin_cases id
  · exact absurd rfl h0
  · show (RunTimers I m n).timer 0 = (RunTimers.upto I n m 2).timer 0 ∧
      ((RunTimers I m n).timer 1).persistent = ((RunTimers.upto I n m 2).timer 1).persistent ∧
      ∀ y, (RunTimers.upto I n m 2).irq_if &&& y = y → (RunTimers I m n).irq_if &&& y = y
    rw [run_eq_upto, upto_three]
    refine ⟨?_, ?_, ?_⟩
    · rw [body_timer_far I n _ 3 0 (by decide) (by decide),
        body_timer_far I n _ 2 0 (by decide) (by decide)]
    · rw [body_timer_persistent I n _ 3 1 (by decide),
        body_timer_persistent I n _ 2 1 (by decide)]
    · intro y hy
      exact body_irq_keeps I n _ 3 y (body_irq_keeps I n _ 2 y hy)
  · show (RunTimers I m n).timer 1 = (RunTimers.upto I n m 3).timer 1 ∧
      ((RunTimers I m n).timer 2).persistent = ((RunTimers.upto I n m 3).timer 2).persistent ∧
      ∀ y, (RunTimers.upto I n m 3).irq_if &&& y = y → (RunTimers I m n).irq_if &&& y = y
    rw [run_eq_upto]
    refine ⟨?_, ?_, ?_⟩
    · rw [body_timer_far I n _ 3 1 (by decide) (by decide)]
    · rw [body_timer_persistent I n _ 3 2 (by decide)]
    · intro y hy
      exact body_irq_keeps I n _ 3 y hy
  · exact ⟨rfl, rfl, fun y hy => hy⟩

/-- A cascade timer whose predecessor wrapped earlier in the call. -/
theorem cascade_after_wrap (I : Nat) (m : Mmio) (n : Int) (id : Fin 4) (h0 : id ≠ 0)
    (he : (m.timer id).control.enable = true)
    (hc : (m.timer id).control.cascade = true)
    (hw : 0 < RunTimers.wraps I n m (id - 1)) :
    (RunTimers.body I n (RunTimers.upto I n m id.val) id).1.timer id = cascadeStep (m.timer id) ∧
    ((RunTimers I m n).timer id).counter = (cascadeStep (m.timer id)).counter ∧
    ((RunTimers I m n).timer (id - 1)).overflow = false ∧
    ((m.timer id).counter = 0xFFFF → (m.timer id).control.interrupt = true →
      (RunTimers I m n).irq_if &&& (I <<< id.val) = I <<< id.val) := by
  have hs := upto_timer_self I n m id
  have hp : ((RunTimers.upto I n m id.val).timer (id - 1)).overflow = true := by
    rw [upto_pred I n m id h0]
    exact body_wraps_overflow I n _ (id - 1) hw
  have hb := body_cascade_step I n (RunTimers.upto I n m id.val) id (by rw [hs]; exact he)
    (by rw [hs]; exact hc) h0 hp
  obtain ⟨a1, a2, a3⟩ := after_step I n m id h0
  rw [hb] at a1 a2 a3 ⊢
  simp only [Function.update_same, Function.update_noteq (pred_ne id h0).symm, hs] at a1 a2 a3 ⊢
  refine ⟨trivial, ?_, ?_, ?_⟩
  · have := congrArg Timer.counter a2
    simpa [Timer.persistent] using this
  · rw [a1]
  · intro h1 h2
    apply a3
    simp only [h1, h2, irqBit, decide_True, Bool.and_self, if_true]
    rw [Nat.or_comm]
    exact nat_or_and_self _ _


/-! ## Register interface -/

theorem write_reload_lo (m : Mmio) (id : Fin 4) (v : Fin 256) :
    WriteTimer m id 0 v =
      { m with
        timer := Function.update m.timer id
          ({ m.timer id with
            reload := Int.lor (Int.land (m.timer id).reload 0xFF00) ((v.val <<< 0 : Nat) : Int) }) } :=
  rfl

theorem write_reload_hi (m : Mmio) (id : Fin 4) (v : Fin 256) :
    WriteTimer m id 1 v =
      { m with
        timer := Function.update m.timer id
          ({ m.timer id with
            reload := Int.lor (Int.land (m.timer id).reload 0x00FF) ((v.val <<< 8 : Nat) : Int) }) } :=
  rfl

theorem write_control (m : Mmio) (id : Fin 4) (v : Fin 256) :
    WriteTimer m id 2 v =
      { m with
        timer := Function.update m.timer id
          ({ m.timer id with
            control := ⟨v.val &&& 3, v.val &&& 4 != 0, v.val &&& 64 != 0, v.val &&& 128 != 0⟩
            shift := g_ticks_shift.getD (v.val &&& 3) 0
            mask := g_ticks_mask.getD (v.val &&& 3) 0
            counter := if (m.timer id).control.enable = false ∧ v.val &&& 128 ≠ 0
              then (m.timer id).reload else (m.timer id).counter }) } := by
  unfold WriteTimer
  by_cases h1 : (m.timer id).control.enable = true <;> by_cases h2 : v.val &&& 128 = 0 <;>
    simp [h1, h2]

theorem testBit_FF (i : Nat) : (0xFF : Nat).testBit i = decide (i < 8) :=
  Nat.testBit_two_pow_sub_one 8 i

theorem testBit_FF00 (i : Nat) : (0xFF00 : Nat).testBit i = (decide (8 ≤ i) && decide (i < 16)) := by
  have h : (0xFF00 : Nat) = (2 ^ 8 - 1) <<< 8 := by decide
  rw [h, Nat.testBit_shiftLeft, Nat.testBit_two_pow_sub_one]
  by_cases h8 : 8 ≤ i
  · simp [h8]; omega
  · simp [h8]

theorem byte_testBit (v i : Nat) (hv : v < 256) (h : 8 ≤ i) : v.testBit i = false := by
  apply Nat.testBit_lt_two_pow
  calc v < 2 ^ 8 := hv
    _ ≤ 2 ^ i := Nat.pow_le_pow_right (by decide) h

/-- The value `x & k` of an `int` `x` with a non-negative constant `k` is a natural number whose
bits are among those of `k`. -/
theorem int_land_ofNat (R : Int) (k : Nat) :
    ∃ x : Nat, Int.land R (k : Int) = (x : Int) ∧ ∀ i, x.testBit i = true → k.testBit i = true := by
  cases R with
  | ofNat r =>
    refine ⟨r &&& k, rfl, ?_⟩
    intro i hi
    rw [Nat.testBit_and] at hi
    simp only [Bool.and_eq_true] at hi
    exact hi.2
  | negSucc r =>
    refine ⟨Nat.ldiff k r, rfl, ?_⟩
    intro i hi
    rw [Nat.testBit_ldiff] at hi
    simp only [Bool.and_eq_true] at hi
    exact hi.1

theorem merge_lo_hi (x lo hi : Nat) (hlo : lo < 256)
    (hx : ∀ i, x.testBit i = true → (0xFF00 : Nat).testBit i = true) :
    ((x ||| lo <<< 0) &&& 0xFF) ||| (hi <<< 8) = lo ||| hi <<< 8 := by
  apply Nat.eq_of_testBit_eq
  intro i
  have hx' := hx i
  rw [testBit_FF00] at hx'
  simp only [Nat.testBit_or, Nat.testBit_and, testBit_FF, Nat.shiftLeft_zero]
  by_cases h8 : i < 8
  · have : x.testBit i = false := by
      cases hxi : x.testBit i
      · rfl
      · have := hx' hxi
        simp only [Bool.and_eq_true, decide_eq_true_eq] at this
        omega
    simp [h8, this]
  · simp [h8, byte_testBit lo i hlo (by omega)]

theorem merge_hi_lo (y lo hi : Nat) (hhi : hi < 256)
    (hy : ∀ i, y.testBit i = true → (0xFF : Nat).testBit i = true) :
    ((y ||| hi <<< 8) &&& 0xFF00) ||| (lo <<< 0) = lo ||| hi <<< 8 := by
  apply Nat.eq_of_testBit_eq
  intro i
  have hy' := hy i
  rw [testBit_FF] at hy'
  simp only [Nat.testBit_or, Nat.testBit_and, testBit_FF00, Nat.shiftLeft_zero,
    Nat.testBit_shiftLeft]
  by_cases h8 : 8 ≤ i
  · have : y.testBit i = false := by
      cases hyi : y.testBit i
      · rfl
      · have := hy' hyi
        simp only [decide_eq_true_eq] at this
        omega
    by_cases h16 : i < 16
    · simp [h8, h16, this, Bool.or_comm]
    · have : hi.testBit (i - 8) = false := byte_testBit hi (i - 8) hhi (by omega)
      simp [h8, h16, this]
  · have h8' : ¬ (i ≥ 8) := h8
    simp [h8, h8']

theorem lo_hi_value (lo hi : Nat) (hlo : lo < 256) : lo ||| hi <<< 8 = hi * 256 + lo := by
  have h := Nat.mul_add_lt_is_or (show lo < 2 ^ 8 from hlo) hi
  rw [Nat.or_comm, Nat.shiftLeft_eq, Nat.mul_comm hi, ← h]

theorem reload_lo_then_hi (R : Int) (a b : Fin 256) :
    Int.lor (Int.land (Int.lor (Int.land R 0xFF00) ((a.val <<< 0 : Nat) : Int)) 0x00FF)
      ((b.val <<< 8 : Nat) : Int) = ((a.val ||| b.val <<< 8 : Nat) : Int) := by
  obtain ⟨x, hx, hbits⟩ := int_land_ofNat R 0xFF00
  have e : Int.land R 0xFF00 = (x : Int) := hx
  rw [e]
  show (((((x ||| a.val <<< 0) &&& 0xFF) ||| b.val <<< 8 : Nat)) : Int) = _
  rw [merge_lo_hi x a.val b.val a.isLt hbits]

theorem reload_hi_then_lo (R : Int) (a b : Fin 256) :
    Int.lor (Int.land (Int.lor (Int.land R 0x00FF) ((b.val <<< 8 : Nat) : Int)) 0xFF00)
      ((a.val <<< 0 : Nat) : Int) = ((a.val ||| b.val <<< 8 : Nat) : Int) := by
  obtain ⟨y, hy, hbits⟩ := int_land_ofNat R 0xFF
  have e : Int.land R 0x00FF = (y : Int) := hy
  rw [e]
  show (((((y ||| b.val <<< 8) &&& 0xFF00) ||| a.val <<< 0 : Nat)) : Int) = _
  rw [merge_hi_lo y a.val b.val b.isLt hbits]

theorem write_lo_hi (m : Mmio) (id : Fin 4) (a b : Fin 256) :
    WriteTimer (WriteTimer m id 0 a) id 1 b =
      { m with
        timer := Function.update m.timer id
          ({ m.timer id with reload := ((a.val ||| b.val <<< 8 : Nat) : Int) }) } := by
  rw [write_reload_hi, write_reload_lo]
  simp only [Function.update_same, Function.update_idem, reload_lo_then_hi]

theorem write_hi_lo (m : Mmio) (id : Fin 4) (a b : Fin 256) :
    WriteTimer (WriteTimer m id 1 b) id 0 a =
      { m with
        timer := Function.update m.timer id
          ({ m.timer id with reload := ((a.val ||| b.val <<< 8 : Nat) : Int) }) } := by
  rw [write_reload_lo, write_reload_hi]
  simp only [Function.update_same, Function.update_idem, reload_hi_then_lo]

theorem read_lo_nat (c : Nat) : (Int.land (c : Int) 0xFF % 256).toNat = c % 256 := by
  have h : Int.land (c : Int) 0xFF = ((c &&& (2 ^ 8 - 1) : Nat) : Int) := rfl
  rw [h, Nat.and_pow_two_sub_one_eq_mod]
  omega

theorem read_hi_nat (c : Nat) : (Int.shiftRight (c : Int) 8 % 256).toNat = c / 256 % 256 := by
  have h : Int.shiftRight (c : Int) 8 = ((c >>> 8 : Nat) : Int) := rfl
  rw [h, Nat.shiftRight_eq_div_pow]
  omega

/-! ## Reset -/

theorem reset_timer (m : Mmio) (id : Fin 4) :
    (ResetTimers m).timer id =
      ⟨(id.val : Int), 0, 0, 0, ⟨0, false, false, false⟩, false, 0, 0⟩ := by
  fin_cases id <;> rfl

theorem reset_irq (m : Mmio) : (ResetTimers m).irq_if = m.irq_if := rfl


/-! ## The invariant of reachable states -/

theorem wf_of_persistent (t u : Timer) (h : t.persistent = u.persistent) (hu : u.WellFormed) :
    t.WellFormed := by
  have e1 : t.WellFormed = t.persistent.WellFormed := rfl
  have e2 : u.WellFormed = u.persistent.WellFormed := rfl
  rw [e1, h, ← e2]
  exact hu

theorem wf_tables (t : Timer) (h : t.WellFormed) :
    t.mask = 2 ^ t.shift - 1 ∧ 0 ≤ t.mask ∧ t.mask ≤ 0x3FF ∧ t.shift ≤ 10 := by
  obtain ⟨-, -, hf, hs, hm, -⟩ := h
  rw [hs, hm]
  generalize t.control.frequency = f at *
  interval_cases f <;> simp [g_ticks_shift, g_ticks_mask]

theorem wf_reset (id : Fin 4) :
    Timer.WellFormed ⟨(id.val : Int), 0, 0, 0, ⟨0, false, false, false⟩, false, 0, 0⟩ := by
  simp [Timer.WellFormed, g_ticks_shift, g_ticks_mask]

theorem wf_cascadeStep (t : Timer) (h : t.WellFormed) : (cascadeStep t).WellFormed := by
  obtain ⟨hc, hr, hf, hs, hm, hk⟩ := h
  unfold cascadeStep
  split
  · exact ⟨hr, hr, hf, hs, hm, hk⟩
  · next hne =>
    refine ⟨⟨?_, ?_⟩, hr, hf, hs, hm, hk⟩
    · show 0 ≤ t.counter + 1
      omega
    · show t.counter + 1 ≤ 0xFFFF
      omega

theorem wf_freeStep (t : Timer) (n : Int) (hn : 0 ≤ n) (h : t.WellFormed) :
    (freeStep t n).WellFormed ∧ (freeStep t n).cycles ≤ t.mask := by
  have ht := wf_tables t h
  obtain ⟨hc, hr, hf, hs, hm, hk⟩ := h
  have hq := two_pow_pos_int t.shift
  have hT : 0 ≤ freeTicks t n := by
    unfold freeTicks
    rw [int_shiftRight_eq]
    exact Int.ediv_nonneg (by omega) hq.le
  have hcnt := closedCounter_range t.counter t.reload (freeTicks t n) hc hr hT
  rw [← freeStep_counter t n hr.2] at hcnt
  have hcy : 0 ≤ (freeStep t n).cycles ∧ (freeStep t n).cycles ≤ t.mask := by
    rw [freeStep_cycles, ht.1, int_land_mask _ _ (by omega)]
    have h1 := Int.emod_nonneg (t.cycles + n) (ne_of_gt hq)
    have h2 := Int.emod_lt_of_pos (t.cycles + n) hq
    omega
  have hfr := freeStep_frame t n
  have hctl := freeStep_control t n
  refine ⟨⟨hcnt, ?_, ?_, ?_, ?_, ⟨hcy.1, ?_⟩⟩, hcy.2⟩
  · rw [hfr.1]; exact hr
  · rw [hctl]; exact hf
  · rw [hfr.2.1, hctl]; exact hs
  · rw [hfr.2.2.1, hctl]; exact hm
  · have := ht.2.2.1
    omega

theorem body_wf (I : Nat) (n : Int) (hn : 0 ≤ n) (m : Mmio) (id : Fin 4)
    (h : ∀ j, (m.timer j).WellFormed) :
    ∀ j, ((RunTimers.body I n m id).1.timer j).WellFormed := by
  intro j
  by_cases hj : j = id
  · subst hj
    by_cases he : (m.timer j).control.enable = true
    · by_cases hc : (m.timer j).control.cascade = true
      · by_cases hp : j ≠ 0 ∧ (m.timer (j - 1)).overflow = true
        · rw [body_cascade_step I n m j he hc hp.1 hp.2]
          simp only [Function.update_noteq (pred_ne j hp.1).symm, Function.update_same]
          exact wf_cascadeStep _ (h j)
        · rw [body_cascade_idle I n m j hc hp]; exact h j
      · rw [body_free I n m j he (by simpa using hc)]
        simp only [Function.update_same]
        exact (wf_freeStep _ n hn (h j)).1
    · rw [body_disabled I n m j (by simpa using he)]; exact h j
  · exact wf_of_persistent _ _ (body_timer_persistent I n m id j hj) (h j)

theorem run_wf (I : Nat) (n : Int) (hn : 0 ≤ n) (m : Mmio)
    (h : ∀ j, (m.timer j).WellFormed) : ∀ j, ((RunTimers I m n).timer j).WellFormed := by
  unfold RunTimers
  simp only [List.foldl_cons, List.foldl_nil]
  exact body_wf I n hn _ 3 (body_wf I n hn _ 2 (body_wf I n hn _ 1 (body_wf I n hn _ 0 h)))

theorem byte_shift_lt (v : Fin 256) : v.val <<< 8 < 2 ^ 16 := by
  have := v.isLt
  rw [Nat.shiftLeft_eq]
  omega

theorem reload_lo_range (r : Int) (hr : 0 ≤ r) (v : Fin 256) :
    0 ≤ Int.lor (Int.land r 0xFF00) ((v.val <<< 0 : Nat) : Int) ∧
    Int.lor (Int.land r 0xFF00) ((v.val <<< 0 : Nat) : Int) ≤ 0xFFFF := by
  obtain ⟨a, rfl⟩ := Int.eq_ofNat_of_zero_le hr
  have e : Int.lor (Int.land (a : Int) 0xFF00) ((v.val <<< 0 : Nat) : Int) =
      (((a &&& 0xFF00) ||| v.val <<< 0 : Nat) : Int) := rfl
  rw [e]
  have h1 : a &&& 0xFF00 < 2 ^ 16 := Nat.and_lt_two_pow a (by decide)
  have h2 : v.val <<< 0 < 2 ^ 16 := by
    have := v.isLt
    simp only [Nat.shiftLeft_zero]
    omega
  have := Nat.or_lt_two_pow h1 h2
  omega

theorem reload_hi_range (r : Int) (hr : 0 ≤ r) (v : Fin 256) :
    0 ≤ Int.lor (Int.land r 0x00FF) ((v.val <<< 8 : Nat) : Int) ∧
    Int.lor (Int.land r 0x00FF) ((v.val <<< 8 : Nat) : Int) ≤ 0xFFFF := by
  obtain ⟨a, rfl⟩ := Int.eq_ofNat_of_zero_le hr
  have e : Int.lor (Int.land (a : Int) 0x00FF) ((v.val <<< 8 : Nat) : Int) =
      (((a &&& 0xFF) ||| v.val <<< 8 : Nat) : Int) := rfl
  rw [e]
  have h1 : a &&& 0xFF < 2 ^ 16 := Nat.and_lt_two_pow a (by decide)
  have := Nat.or_lt_two_pow h1 (byte_shift_lt v)
  omega

theorem write_wf (m : Mmio) (id : Fin 4) (offset : Int) (v : Fin 256)
    (h : ∀ j, (m.timer j).WellFormed) : ∀ j, ((WriteTimer m id offset v).timer j).WellFormed := by
  intro j
  by_cases h0 : offset = 0
  · subst h0
    rw [write_reload_lo]
    by_cases hj : j = id
    · subst hj
      simp only [Function.update_same]
      obtain ⟨hc, hr, hf, hs, hm, hk⟩ := h j
      exact ⟨hc, reload_lo_range _ hr.1 v, hf, hs, hm, hk⟩
    · simp only [Function.update_noteq hj]; exact h j
  by_cases h1 : offset = 1
  · subst h1
    rw [write_reload_hi]
    by_cases hj : j = id
    · subst hj
      simp only [Function.update_same]
      obtain ⟨hc, hr, hf, hs, hm, hk⟩ := h j
      exact ⟨hc, reload_hi_range _ hr.1 v, hf, hs, hm, hk⟩
    · simp only [Function.update_noteq hj]; exact h j
  by_cases h2 : offset = 2
  · subst h2
    rw [write_control]
    by_cases hj : j = id
    · subst hj
      simp only [Function.update_same]
      obtain ⟨hc, hr, hf, hs, hm, hk⟩ := h j
      refine ⟨?_, hr, Nat.and_le_right, rfl, rfl, hk⟩
      dsimp only
      split_ifs
      · exact hr
      · exact hc
    · simp only [Function.update_noteq hj]; exact h j
  · have : WriteTimer m id offset v = m := by
      unfold WriteTimer
      split
      · exact absurd rfl h0
      · exact absurd rfl h1
      · exact absurd rfl h2
      · rfl
    rw [this]; exact h j

/-- Every timer record of a reachable state is well formed. -/
theorem reachable_wf (I : Nat) (s : Mmio) (h : Reachable I s) : ∀ j, (s.timer j).WellFormed := by
  induction h with
  | reset m =>
    intro j
    rw [reset_timer]
    exact wf_reset j
  | write m id offset value _ ih => exact write_wf m id offset value ih
  | run m n hn _ ih => exact run_wf I n hn m ih

/-! ## A timer whose own iteration is idle -/

/-- The iteration of a disabled timer, or of timer 0 in cascade mode, does nothing. -/
theorem body_idle (I : Nat) (n : Int) (m s : Mmio) (id : Fin 4)
    (hidle : (m.timer id).control.enable = false ∨
      ((m.timer id).control.cascade = true ∧ id = 0))
    (hs : (s.timer id).control = (m.timer id).control) :
    RunTimers.body I n s id = (s, 0) := by
  rcases hidle with h | ⟨h, h0⟩
  · exact body_disabled I n s id (by rw [hs]; exact h)
  · exact body_cascade_idle I n s id (by rw [hs]; exact h) (fun hq => hq.1 h0)

/-- The fields other than `overflow` of a timer whose own iteration is idle. -/
theorem idle_persistent (I : Nat) (n : Int) (m : Mmio) (id : Fin 4)
    (hidle : (m.timer id).control.enable = false ∨
      ((m.timer id).control.cascade = true ∧ id = 0)) :
    ((RunTimers I m n).timer id).persistent = (m.timer id).persistent := by
  obtain ⟨l₁, l₂, hl, h1, h2⟩ := loop_split id
  unfold RunTimers
  rw [hl, List.foldl_append, List.foldl_cons, foldl_body_persistent I n id l₂ _ h2]
  have hp := foldl_body_persistent I n id l₁ m h1
  rw [body_idle I n m _ id hidle (persistent_control _ _ hp)]
  exact hp

/-- The `overflow` flag of an idle timer `k - 1` is consumed by timer `k` exactly when
timer `k` is enabled in cascade mode. -/
theorem idle_overflow_pred (I : Nat) (n : Int) (m : Mmio) (k : Fin 4) (hk : k ≠ 0)
    (hidle : (m.timer (k - 1)).control.enable = false ∨
      ((m.timer (k - 1)).control.cascade = true ∧ k - 1 = 0)) :
    ((RunTimers I m n).timer (k - 1)).overflow =
      ((m.timer (k - 1)).overflow &&
        !((m.timer k).control.enable && (m.timer k).control.cascade)) := by
  have hs := upto_timer_self I n m k
  have hsp : (RunTimers.upto I n m k.val).timer (k - 1) = m.timer (k - 1) := by
    rw [upto_pred I n m k hk,
      body_idle I n m _ (k - 1) hidle (by rw [upto_timer_self I n m (k - 1)])]
    exact upto_timer_self I n m (k - 1)
  rw [(after_step I n m k hk).1]
  by_cases he : (m.timer k).control.enable = true
  · by_cases hc : (m.timer k).control.cascade = true
    · by_cases ho : (m.timer (k - 1)).overflow = true
      · rw [body_cascade_step I n _ k (by rw [hs]; exact he) (by rw [hs]; exact hc) hk
          (by rw [hsp]; exact ho)]
        simp [Function.update_same, he, hc, ho]
      · rw [body_cascade_idle I n _ k (by rw [hs]; exact hc)
          (fun hq => ho (by rw [← hsp]; exact hq.2)), hsp]
        simp [ho]
    · rw [body_free I n _ k (by rw [hs]; exact he) (by rw [hs]; simpa using hc)]
      simp only [Function.update_noteq (pred_ne k hk), hsp]
      simp [hc]
  · rw [body_disabled I n _ k (by rw [hs]; simpa using he), hsp]
    simp [he]

/-- The last timer has no successor: idle, it keeps its `overflow` flag. -/
theorem idle_overflow_last (I : Nat) (n : Int) (m : Mmio)
    (hidle : (m.timer 3).control.enable = false ∨
      ((m.timer 3).control.cascade = true ∧ (3 : Fin 4) = 0)) :
    (RunTimers I m n).timer 3 = m.timer 3 := by
  have hs : (RunTimers.upto I n m 3).timer 3 = m.timer 3 := upto_timer_self I n m 3
  rw [run_eq_upto, body_idle I n m _ 3 hidle (by rw [hs]), hs]

/-! ## The overflow flag after a call -/

/-- Another timer's iteration never sets a timer's `overflow` flag. -/
theorem body_overflow_other (I : Nat) (n : Int) (m : Mmio) (id j : Fin 4) (hj : j ≠ id)
    (h : ((RunTimers.body I n m id).1.timer j).overflow = true) :
    (m.timer j).overflow = true := by
  by_cases he : (m.timer id).control.enable = true
  · by_cases hc : (m.timer id).control.cascade = true
    · by_cases hq : id ≠ 0 ∧ (m.timer (id - 1)).overflow = true
      · rw [body_cascade_step I n m id he hc hq.1 hq.2] at h
        by_cases hp : j = id - 1
        · subst hp
          simp only [Function.update_same] at h
          exact Bool.noConfusion h
        · simpa only [Function.update_noteq hp, Function.update_noteq hj] using h
      · rw [body_cascade_idle I n m id hc hq] at h; exact h
    · rw [body_free I n m id he (by simpa using hc)] at h
      simpa only [Function.update_noteq hj] using h
  · rw [body_disabled I n m id (by simpa using he)] at h; exact h

theorem foldl_body_overflow (I : Nat) (n : Int) (id : Fin 4) (l : List (Fin 4)) :
    ∀ (m : Mmio), id ∉ l →
      ((l.foldl (fun m id => (RunTimers.body I n m id).1) m).timer id).overflow = true →
      (m.timer id).overflow = true := by
  induction l with
  | nil => intro m _ h; exact h
  | cons a l ih =>
    intro m h hov
    simp only [List.mem_cons, not_or] at h
    rw [List.foldl_cons] at hov
    exact body_overflow_other I n m a id h.1 (ih _ h.2 hov)

/-- An enabled free-running timer whose `overflow` flag is set when `RunTimers` returns
wrapped during that call. -/
theorem free_overflow_wrapped (I : Nat) (n : Int) (m : Mmio) (id : Fin 4)
    (he : (m.timer id).control.enable = true)
    (hc : (m.timer id).control.cascade = false)
    (hr : (m.timer id).reload ≤ 0xFFFF)
    (hov : ((RunTimers I m n).timer id).overflow = true) :
    0 < RunTimers.wraps I n m id := by
  obtain ⟨l₁, l₂, hl, h1, h2⟩ := loop_split id
  unfold RunTimers at hov
  rw [hl, List.foldl_append, List.foldl_cons] at hov
  have hov' := foldl_body_overflow I n id l₂ _ h2 hov
  have hp := foldl_body_persistent I n id l₁ m h1
  have hctl := persistent_control _ _ hp
  rw [body_free I n _ id (by rw [hctl]; exact he) (by rw [hctl]; exact hc)] at hov'
  simp only [Function.update_same] at hov'
  rw [freeStep_persistent _ _ n hp, freeStep_overflow, decide_eq_true_eq] at hov'
  rw [wraps_free I n m id he hc, freeWraps_pos _ _ hr]
  exact hov'

/-- At the iteration of timer `id ≥ 1`, the `overflow` flag of an enabled free-running
predecessor is set exactly when the predecessor wrapped earlier in the call. -/
theorem pred_flag_iff_wraps (I : Nat) (n : Int) (m : Mmio) (id : Fin 4) (h0 : id ≠ 0)
    (hpe : (m.timer (id - 1)).control.enable = true)
    (hpc : (m.timer (id - 1)).control.cascade = false)
    (hpr : (m.timer (id - 1)).reload ≤ 0xFFFF) :
    ((RunTimers.upto I n m id.val).timer (id - 1)).overflow = true ↔
      0 < RunTimers.wraps I n m (id - 1) := by
  have hsp := upto_timer_self I n m (id - 1)
  rw [upto_pred I n m id h0,
    body_free I n _ (id - 1) (by rw [hsp]; exact hpe) (by rw [hsp]; exact hpc)]
  simp only [Function.update_same, hsp, freeStep_overflow, decide_eq_true_eq]
  rw [wraps_free I n m (id - 1) hpe hpc, freeWraps_pos _ _ hpr]

/-- A cascade timer behind an enabled free-running predecessor that did not wrap in
the call keeps its counter. -/
theorem cascade_counter_kept (I : Nat) (n : Int) (m : Mmio) (id : Fin 4) (h0 : id ≠ 0)
    (hc : (m.timer id).control.cascade = true)
    (hpe : (m.timer (id - 1)).control.enable = true)
    (hpc : (m.timer (id - 1)).control.cascade = false)
    (hpr : (m.timer (id - 1)).reload ≤ 0xFFFF)
    (hw : ¬ 0 < RunTimers.wraps I n m (id - 1)) :
    ((RunTimers I m n).timer id).counter = (m.timer id).counter := by
  have hs := upto_timer_self I n m id
  have hp : ¬ (id ≠ 0 ∧ ((RunTimers.upto I n m id.val).timer (id - 1)).overflow = true) :=
    fun hq => hw ((pred_flag_iff_wraps I n m id h0 hpe hpc hpr).1 hq.2)
  have hb := body_cascade_idle I n (RunTimers.upto I n m id.val) id (by rw [hs]; exact hc) hp
  have a2 := (after_step I n m id h0).2.1
  rw [hb, hs] at a2
  have := congrArg Timer.counter a2
  simpa [Timer.persistent] using this

/-! ## Closed form, repeated single-cycle calls, and single ticks -/

/-- One call of `RunTimers(n)` against `n` calls of `RunTimers(1)` on a divisor-1 timer. -/
theorem run_eq_iterate (I : Nat) (m : Mmio) (id : Fin 4) (n : Nat)
    (he : (m.timer id).control.enable = true)
    (hc : (m.timer id).control.cascade = false)
    (hs : (m.timer id).shift = 0) (hm : (m.timer id).mask = 0)
    (hcr : 0 ≤ (m.timer id).counter ∧ (m.timer id).counter ≤ 0xFFFF)
    (hrr : 0 ≤ (m.timer id).reload ∧ (m.timer id).reload ≤ 0xFFFF)
    (hk : 0 ≤ (m.timer id).cycles)
    (hn : 0 < n ∨ (m.timer id).cycles = 0) :
    ((RunTimers I m (n : Int)).timer id).counter =
      (((fun s => RunTimers I s 1)^[n] m).timer id).counter := by
  have f := run_free_fields I (n : Int) m id he hc hrr.2
  rw [f.1]
  rcases Nat.eq_zero_or_pos n with h0 | hpos
  · subst h0
    have hk0 : (m.timer id).cycles = 0 := by
      rcases hn with h | h
      · exact absurd h (by decide)
      · exact h
    simp [freeTicks, hs, hk0, int_shiftRight_zero, closedCounter_zero _ _ hcr.2]
  · obtain ⟨j, rfl⟩ : ∃ j, n = j + 1 := ⟨n - 1, by omega⟩
    have g := run_free_fields I 1 m id he hc hrr.2
    have hT : freeTicks (m.timer id) 1 = (m.timer id).cycles + 1 := by
      simp [freeTicks, hs, int_shiftRight_zero]
    rw [hT] at g
    have hc1 := (closedCounter_range _ _ ((m.timer id).cycles + 1) hcr hrr (by omega)).2
    rw [← g.1] at hc1
    rw [Function.iterate_succ_apply,
      iterate_ticks I id (m.timer id).reload hrr j (RunTimers I m 1)
        (by rw [g.2.2.2.2.2]; exact he) (by rw [g.2.2.2.2.2]; exact hc)
        (by rw [g.2.2.2.1]; exact hs) (by rw [g.2.2.2.2.1]; exact hm)
        (by rw [g.2.1, hm, int_land_zero]) g.2.2.1 hc1,
      g.1, closedCounter_add _ _ _ _ hrr (by omega)]
    congr 1
    simp only [freeTicks, hs, int_shiftRight_zero]
    push_cast; ring


/-- The closed form is the tick-by-tick run: `T` single ticks from `c`. -/
theorem closedCounter_eq_ticks (c r : Int) (hc : 0 ≤ c ∧ c ≤ 0xFFFF) (hr : 0 ≤ r ∧ r ≤ 0xFFFF)
    (t : Nat) : closedCounter c r (t : Int) = (fun x => tickOnce x r)^[t] c := by
  induction t with
  | zero => simp [closedCounter_zero _ _ hc.2]
  | succ t ih =>
    have hrange := closedCounter_range c r (t : Int) hc hr (by omega)
    rw [Function.iterate_succ_apply', ← ih, ← closedCounter_one _ _ hrange.2,
      closedCounter_add _ _ _ _ hr (by omega)]
    congr 1

/-! ## The claims -/

/-- C1 as stated fails.  `staleBank` is reachable from reset, its timer 0 is enabled,
not in cascade mode, has frequency 0 (shift 0, mask 0) and counter and reload in
[0, 0xFFFF]; but it still carries 10 leftover cycles, so `RunTimers(0)` moves the
counter to 10 while zero calls of `RunTimers(1)` leave it at 0. -/
theorem C1_counterexample :
    (staleBank.timer 0).control.enable = true ∧
    (staleBank.timer 0).control.cascade = false ∧
    (staleBank.timer 0).control.frequency = 0 ∧
    (staleBank.timer 0).shift = 0 ∧ (staleBank.timer 0).mask = 0 ∧
    (0 ≤ (staleBank.timer 0).counter ∧ (staleBank.timer 0).counter ≤ 0xFFFF) ∧
    (0 ≤ (staleBank.timer 0).reload ∧ (staleBank.timer 0).reload ≤ 0xFFFF) ∧
    (staleBank.timer 0).cycles = 10 ∧
    ((RunTimers 8 staleBank ((0 : Nat) : Int)).timer 0).counter = 10 ∧
    (((fun s => RunTimers 8 s 1)^[0] staleBank).timer 0).counter = 0 ∧
    ((RunTimers 8 staleBank ((0 : Nat) : Int)).timer 0).counter ≠
      (((fun s => RunTimers 8 s 1)^[0] staleBank).timer 0).counter := by
  decide

/-- C1, amended.  For an enabled, non-cascade timer with frequency 0 (shift 0, mask 0),
counter `c` and reload `r` in [0, 0xFFFF] and leftover `cycles ≥ 0`, and for every `n` with
`n ≥ 1` or `cycles = 0`: the counter after one `RunTimers(n)` equals the counter after `n`
consecutive `RunTimers(1)` calls, and both equal the tick-by-tick simulation run for
`cycles + n` ticks from `c`, in which the counter goes up by one per tick and is set to the
reload value when it would pass 0xFFFF; with no leftover that is `n` ticks, one per cycle. -/
theorem C1_closed_form_eq_ticks (I : Nat) (m : Mmio) (id : Fin 4) (n : Nat)
    (he : (m.timer id).control.enable = true)
    (hc : (m.timer id).control.cascade = false)
    (_hf : (m.timer id).control.frequency = 0)
    (hs : (m.timer id).shift = 0) (hm : (m.timer id).mask = 0)
    (hcr : 0 ≤ (m.timer id).counter ∧ (m.timer id).counter ≤ 0xFFFF)
    (hrr : 0 ≤ (m.timer id).reload ∧ (m.timer id).reload ≤ 0xFFFF)
    (hk : 0 ≤ (m.timer id).cycles)
    (hn : 0 < n ∨ (m.timer id).cycles = 0) :
    ((RunTimers I m (n : Int)).timer id).counter =
      (((fun s => RunTimers I s 1)^[n] m).timer id).counter ∧
    ((RunTimers I m (n : Int)).timer id).counter =
      (fun c => tickOnce c (m.timer id).reload)^[((m.timer id).cycles + (n : Int)).toNat]
        (m.timer id).counter ∧
    ((m.timer id).cycles = 0 →
      ((RunTimers I m (n : Int)).timer id).counter =
        (fun c => tickOnce c (m.timer id).reload)^[n] (m.timer id).counter ∧
      (((fun s => RunTimers I s 1)^[n] m).timer id).counter =
        (fun c => tickOnce c (m.timer id).reload)^[n] (m.timer id).counter) := by
  have e1 := run_eq_iterate I m id n he hc hs hm hcr hrr hk hn
  have f := run_free_fields I (n : Int) m id he hc hrr.2
  have hT : freeTicks (m.timer id) (n : Int) = (m.timer id).cycles + (n : Int) := by
    simp [freeTicks, hs, int_shiftRight_zero]
  have e2 : ((RunTimers I m (n : Int)).timer id).counter =
      (fun c => tickOnce c (m.timer id).reload)^[((m.timer id).cycles + (n : Int)).toNat]
        (m.timer id).counter := by
    rw [f.1, hT, ← closedCounter_eq_ticks _ _ hcr hrr, Int.toNat_of_nonneg (by omega)]
  refine ⟨e1, e2, ?_⟩
  intro hk0
  have e3 : ((RunTimers I m (n : Int)).timer id).counter =
      (fun c => tickOnce c (m.timer id).reload)^[n] (m.timer id).counter := by
    rw [e2, hk0]
    simp
  exact ⟨e3, by rw [← e1]; exact e3⟩

/-- C1, amended, at `nearWrapBank` (timer 0 at 0xFFFE, reload 0, no leftover) with `n = 5`:
five ticks 0xFFFF, 0, 1, 2, 3, for the single call and for the five single-cycle calls. -/
theorem C1_closed_form_eq_ticks_witness :
    ((RunTimers 8 nearWrapBank ((5 : Nat) : Int)).timer 0).counter = 3 ∧
    (((fun s => RunTimers 8 s 1)^[5] nearWrapBank).timer 0).counter = 3 :=
  have h := (C1_closed_form_eq_ticks 8 nearWrapBank 0 5 (by decide) (by decide) (by decide)
    (by decide) (by decide) (by decide) (by decide) (by decide) (by decide)).2.2 (by decide)
  ⟨h.1.trans (by decide), h.2.trans (by decide)⟩

/-- C2. Batch-size independence.  In a bank whose enabled timers are all free-running,
each with counter and reload in [0, 0xFFFF], `0 ≤ cycles ≤ mask` and `mask = 2^shift - 1`,
and for `a, b ≥ 0`: `RunTimers(a)` followed by `RunTimers(b)` leaves every enabled
timer's counter and cycles, and the interrupt-request word, as a single
`RunTimers(a + b)` leaves them.  In particular, with frequency 1 (shift 6, mask 0x3F),
advancing by 10, 10 and 44 cycles moves the counter by exactly one tick (plus one, or
to the reload value from 0xFFFF), and so does a single advance by 64. -/
theorem C2_batch_size_independence (I : Nat) (m : Mmio) (a b : Int) (ha : 0 ≤ a) (hb : 0 ≤ b)
    (hbank : ∀ j, (m.timer j).control.enable = true →
      (m.timer j).control.cascade = false ∧
      (0 ≤ (m.timer j).counter ∧ (m.timer j).counter ≤ 0xFFFF) ∧
      (0 ≤ (m.timer j).reload ∧ (m.timer j).reload ≤ 0xFFFF) ∧
      (0 ≤ (m.timer j).cycles ∧ (m.timer j).cycles ≤ (m.timer j).mask) ∧
      (m.timer j).mask = 2 ^ (m.timer j).shift - 1) :
    (∀ id, (m.timer id).control.enable = true →
      ((RunTimers I (RunTimers I m a) b).timer id).counter =
        ((RunTimers I m (a + b)).timer id).counter ∧
      ((RunTimers I (RunTimers I m a) b).timer id).cycles =
        ((RunTimers I m (a + b)).timer id).cycles) ∧
    (RunTimers I (RunTimers I m a) b).irq_if = (RunTimers I m (a + b)).irq_if ∧
    (∀ id, (m.timer id).control.enable = true → (m.timer id).control.frequency = 1 →
      (m.timer id).shift = 6 → (m.timer id).mask = 0x3F →
      ((RunTimers I (RunTimers I (RunTimers I m 10) 10) 44).timer id).counter =
        (if (m.timer id).counter = 0xFFFF then (m.timer id).reload
          else (m.timer id).counter + 1) ∧
      ((RunTimers I m 64).timer id).counter =
        (if (m.timer id).counter = 0xFFFF then (m.timer id).reload
          else (m.timer id).counter + 1)) := by
  refine ⟨?_, ?_, ?_⟩
  · intro id he
    obtain ⟨hc, _, hrr, hk, hm⟩ := hbank id he
    have t := two_batch I m id a b he hc hrr hk.1 hm ha hb
    exact ⟨t.1, t.2.1⟩
  · exact two_batch_irq I m a b
      (fun j he => ⟨(hbank j he).1, (hbank j he).2.2.1, (hbank j he).2.2.2.1.1,
        (hbank j he).2.2.2.2⟩) ha hb
  · intro id he _ hs hmk
    obtain ⟨hc, hcr, hrr, hk, hm⟩ := hbank id he
    have f := run_free_fields I 10 m id he hc hrr.2
    have hq := two_pow_pos_int (m.timer id).shift
    have hk1 : 0 ≤ ((RunTimers I m 10).timer id).cycles := by
      rw [f.2.1, hm, int_land_mask _ _ (by omega)]
      exact Int.emod_nonneg _ (ne_of_gt hq)
    have t1 := two_batch I (RunTimers I m 10) id 10 44 (by rw [f.2.2.2.2.2]; exact he)
      (by rw [f.2.2.2.2.2]; exact hc) (by rw [f.2.2.1]; exact hrr) hk1
      (by rw [f.2.2.2.2.1, f.2.2.2.1]; exact hm) (by decide) (by decide)
    have t2 := two_batch I m id 10 54 he hc hrr hk.1 hm (by decide) (by decide)
    have g := run_free_fields I 64 m id he hc hrr.2
    have hT : freeTicks (m.timer id) 64 = 1 := by
      unfold freeTicks
      rw [int_shiftRight_eq, hs]
      rw [hmk] at hk
      omega
    have e : ((RunTimers I m 64).timer id).counter =
        (if (m.timer id).counter = 0xFFFF then (m.timer id).reload
          else (m.timer id).counter + 1) := by
      rw [g.1, hT, closedCounter_one _ _ hcr.2]; rfl
    refine ⟨?_, e⟩
    rw [t1.1]
    have : (10 : Int) + 44 = 54 := by decide
    rw [this, t2.1]
    exact e

/-- C2 at `divisorBank` with batches of 10 and 54 cycles. -/
theorem C2_batch_size_independence_witness :
    ((RunTimers 8 (RunTimers 8 divisorBank 10) 54).timer 2).counter =
      ((RunTimers 8 divisorBank (10 + 54)).timer 2).counter ∧
    (RunTimers 8 (RunTimers 8 divisorBank 10) 54).irq_if =
      (RunTimers 8 divisorBank (10 + 54)).irq_if :=
  have h := C2_batch_size_independence 8 divisorBank 10 54 (by decide) (by decide) (by decide)
  ⟨(h.1 2 (by decide)).1, h.2.1⟩

theorem freeStep_at_FFFE (t : Timer) (hs : t.shift = 0) (hm : t.mask = 0) (hk : t.cycles = 0)
    (hc : t.counter = 0xFFFE) :
    (freeStep t 1).counter = 0xFFFF ∧ (freeStep t 1).overflow = false ∧
      (freeStep t 1).cycles = 0 := by
  simp [freeStep, freeTicks, hs, hm, hk, hc, int_shiftRight_zero, int_land_zero]

theorem freeStep_at_FFFF (t : Timer) (hs : t.shift = 0) (hk : t.cycles = 0)
    (hc : t.counter = 0xFFFF) (hr : t.reload ≤ 0xFFFF) :
    (freeStep t 1).counter = t.reload ∧ (freeStep t 1).overflow = true := by
  have : ¬ (65536 - t.reload ≤ 0) := by omega
  simp [freeStep, freeTicks, freeRest, hs, hk, hc, int_shiftRight_zero, this]

/-- C3 as stated fails in its closing example.  `staleNearWrapBank` is reachable; its
timer 0 is enabled, not in cascade mode, has frequency 0 (shift 0, mask 0), counter
0xFFFE and reload 0, and carries 10 leftover cycles.  Advancing by 1 makes 11 ticks
available: the timer's step wraps, sets `overflow` and leaves the counter at 9, not at
0xFFFF without overflow. -/
theorem C3_counterexample :
    Reachable 8 staleNearWrapBank ∧
    (staleNearWrapBank.timer 0).control.enable = true ∧
    (staleNearWrapBank.timer 0).control.cascade = false ∧
    (staleNearWrapBank.timer 0).control.frequency = 0 ∧
    (staleNearWrapBank.timer 0).shift = 0 ∧ (staleNearWrapBank.timer 0).mask = 0 ∧
    (staleNearWrapBank.timer 0).counter = 0xFFFE ∧
    (staleNearWrapBank.timer 0).reload = 0 ∧
    (staleNearWrapBank.timer 0).cycles = 10 ∧
    ((RunTimers.body 8 1 (RunTimers.upto 8 1 staleNearWrapBank (0 : Fin 4).val) 0).1.timer
      0).counter = 9 ∧
    ((RunTimers.body 8 1 (RunTimers.upto 8 1 staleNearWrapBank (0 : Fin 4).val) 0).1.timer
      0).overflow = true ∧
    ((RunTimers 8 staleNearWrapBank 1).timer 0).counter = 9 ∧
    ((RunTimers 8 staleNearWrapBank 1).timer 0).counter ≠ 0xFFFF :=
  ⟨Reachable.write _ _ _ _ (Reachable.write _ _ _ _ (Reachable.write _ _ _ _
      (Reachable.run _ _ (by decide) (Reachable.write _ _ _ _ (Reachable.write _ _ _ _
        (Reachable.write _ _ _ _ (Reachable.reset _))))))),
    by decide, by decide, by decide, by decide, by decide, by decide, by decide, by decide,
    by decide, by decide, by decide, by decide⟩

/-- C3, amended.  For an enabled non-cascade timer with
counter `c` and reload `r` in [0, 0xFFFF], leftover `k ≥ 0` and elapsed `n ≥ 0`, put
`T = (k + n) >> shift`.  After the timer's own iteration of the loop of
`RunTimers(n)`: if `T < 0x10000 - c` the counter is `c + T` and `overflow` is false,
otherwise the counter is `r + ((T - (0x10000 - c)) mod (0x10000 - r))` and `overflow`
is true; in both cases `cycles = (k + n) & mask`, and the counter and cycles are
still these when the call returns.  In particular, with shift 0, mask 0, no
leftover (`k = 0`) and `c = 0xFFFE`, advancing by 1 gives 0xFFFF without overflow, and
the timer's step of a second `RunTimers(1)` gives `counter = reload` with overflow set. -/
theorem C3_free_running_step (I : Nat) (m : Mmio) (id : Fin 4) (n : Int)
    (he : (m.timer id).control.enable = true)
    (hc : (m.timer id).control.cascade = false)
    (_hcr : 0 ≤ (m.timer id).counter ∧ (m.timer id).counter ≤ 0xFFFF)
    (hrr : 0 ≤ (m.timer id).reload ∧ (m.timer id).reload ≤ 0xFFFF)
    (_hk : 0 ≤ (m.timer id).cycles) (_hn : 0 ≤ n) :
    (Int.shiftRight ((m.timer id).cycles + n) (m.timer id).shift < 0x10000 - (m.timer id).counter →
      ((RunTimers.body I n (RunTimers.upto I n m id.val) id).1.timer id).counter =
          (m.timer id).counter + Int.shiftRight ((m.timer id).cycles + n) (m.timer id).shift ∧
      ((RunTimers.body I n (RunTimers.upto I n m id.val) id).1.timer id).overflow = false) ∧
    (¬ Int.shiftRight ((m.timer id).cycles + n) (m.timer id).shift < 0x10000 - (m.timer id).counter →
      ((RunTimers.body I n (RunTimers.upto I n m id.val) id).1.timer id).counter =
          (m.timer id).reload +
            (Int.shiftRight ((m.timer id).cycles + n) (m.timer id).shift -
              (0x10000 - (m.timer id).counter)) % (0x10000 - (m.timer id).reload) ∧
      ((RunTimers.body I n (RunTimers.upto I n m id.val) id).1.timer id).overflow = true) ∧
    ((RunTimers.body I n (RunTimers.upto I n m id.val) id).1.timer id).cycles =
      Int.land ((m.timer id).cycles + n) (m.timer id).mask ∧
    ((RunTimers I m n).timer id).counter =
      ((RunTimers.body I n (RunTimers.upto I n m id.val) id).1.timer id).counter ∧
    ((RunTimers I m n).timer id).cycles =
      ((RunTimers.body I n (RunTimers.upto I n m id.val) id).1.timer id).cycles ∧
    ((m.timer id).shift = 0 → (m.timer id).mask = 0 → (m.timer id).cycles = 0 →
      (m.timer id).counter = 0xFFFE →
      ((RunTimers.body I 1 (RunTimers.upto I 1 m id.val) id).1.timer id).counter = 0xFFFF ∧
      ((RunTimers.body I 1 (RunTimers.upto I 1 m id.val) id).1.timer id).overflow = false ∧
      ((RunTimers I m 1).timer id).counter = 0xFFFF ∧
      ((RunTimers.body I 1 (RunTimers.upto I 1 (RunTimers I m 1) id.val) id).1.timer id).counter =
        (m.timer id).reload ∧
      ((RunTimers.body I 1 (RunTimers.upto I 1 (RunTimers I m 1) id.val) id).1.timer id).overflow =
        true) := by
  have step : ∀ (s : Mmio) (k : Int), (s.timer id).control.enable = true →
      (s.timer id).control.cascade = false →
      (RunTimers.body I k (RunTimers.upto I k s id.val) id).1.timer id = freeStep (s.timer id) k := by
    intro s k hes hcs
    have hs := upto_timer_self I k s id
    rw [body_free I k _ id (by rw [hs]; exact hes) (by rw [hs]; exact hcs)]
    simp only [Function.update_same, hs]
  have run : ∀ (k : Int), ((RunTimers I m k).timer id).persistent = (freeStep (m.timer id) k).persistent :=
    fun k => run_free_timer I k m id he hc
  have hcnt := freeStep_counter (m.timer id) n hrr.2
  have hov := freeStep_overflow (m.timer id) n
  rw [step m n he hc]
  refine ⟨?_, ?_, freeStep_cycles _ _, ?_, ?_, ?_⟩
  · intro h
    rw [hcnt, hov]
    unfold closedCounter freeTicks
    rw [if_pos h]
    exact ⟨rfl, decide_eq_false (by omega)⟩
  · intro h
    rw [hcnt, hov]
    unfold closedCounter freeTicks
    rw [if_neg h]
    exact ⟨rfl, decide_eq_true (by omega)⟩
  · have := congrArg Timer.counter (run n)
    simpa [Timer.persistent] using this
  · have := congrArg Timer.cycles (run n)
    simpa [Timer.persistent] using this
  · intro hs hm hk hcv
    have a := freeStep_at_FFFE (m.timer id) hs hm hk hcv
    have hp := run 1
    have hctl := persistent_control _ _ hp
    rw [freeStep_control] at hctl
    have hf := freeStep_frame (m.timer id) 1
    have p1 : ((RunTimers I m 1).timer id).counter = 0xFFFF := by
      have := congrArg Timer.counter hp
      simp only [Timer.persistent] at this
      rw [this, a.1]
    have p2 : ((RunTimers I m 1).timer id).cycles = 0 := by
      have := congrArg Timer.cycles hp
      simp only [Timer.persistent] at this
      rw [this, a.2.2]
    have p3 : ((RunTimers I m 1).timer id).shift = 0 := by
      have := congrArg Timer.shift hp
      simp only [Timer.persistent] at this
      rw [this, hf.2.1, hs]
    have p4 : ((RunTimers I m 1).timer id).reload = (m.timer id).reload := by
      have := congrArg Timer.reload hp
      simp only [Timer.persistent] at this
      rw [this, hf.1]
    have b := freeStep_at_FFFF ((RunTimers I m 1).timer id) p3 p2 p1 (by rw [p4]; exact hrr.2)
    rw [step m 1 he hc, step (RunTimers I m 1) 1 (by rw [hctl]; exact he) (by rw [hctl]; exact hc)]
    exact ⟨a.1, a.2.1, p1, by rw [b.1, p4], b.2⟩

/-- C3, amended, at `nearWrapBank` (timer 0 at 0xFFFE, reload 0, divisor 1, no leftover):
one cycle takes the counter to 0xFFFF, the timer's step of a second `RunTimers(1)` wraps
it to the reload 0. -/
theorem C3_free_running_step_witness :
    ((RunTimers 8 nearWrapBank 1).timer 0).counter = 0xFFFF ∧
    ((RunTimers.body 8 1 (RunTimers.upto 8 1 (RunTimers 8 nearWrapBank 1) (0 : Fin 4).val)
      0).1.timer 0).counter = (nearWrapBank.timer 0).reload ∧
    ((RunTimers.body 8 1 (RunTimers.upto 8 1 (RunTimers 8 nearWrapBank 1) (0 : Fin 4).val)
      0).1.timer 0).overflow = true :=
  have h := (C3_free_running_step 8 nearWrapBank 0 1 (by decide) (by decide) (by decide)
    (by decide) (by decide) (by decide)).2.2.2.2.2 (by decide) (by decide) (by decide) (by decide)
  ⟨h.2.2.1, h.2.2.2.1, h.2.2.2.2⟩

/-- C4. Same-call cascade.  For `id` in 1..3, if timer `id` is enabled with cascade set
and timer `id - 1` wraps earlier in the same `RunTimers` call (positive wrap count), then
within the call timer `id` steps exactly once: from a counter `c ≠ 0xFFFF` it goes to
`c + 1` with `overflow` false, from 0xFFFF it goes to its reload with `overflow` true and,
if its interrupt flag is set, its interrupt-request bits are raised; and when the call
returns the `overflow` flag of timer `id - 1` is false.  With timer 0 free-running at
0xFFFF (frequency 0) and cascade timer 1 at 0, `RunTimers(1)` leaves timer 1's counter
at 1 and timer 0's `overflow` false. -/
theorem C4_same_call_cascade (I : Nat) (m : Mmio) (n : Int) (id : Fin 4) (h0 : id ≠ 0)
    (he : (m.timer id).control.enable = true)
    (hc : (m.timer id).control.cascade = true)
    (hw : 0 < RunTimers.wraps I n m (id - 1)) :
    ((m.timer id).counter ≠ 0xFFFF →
      ((RunTimers.body I n (RunTimers.upto I n m id.val) id).1.timer id).counter =
        (m.timer id).counter + 1 ∧
      ((RunTimers.body I n (RunTimers.upto I n m id.val) id).1.timer id).overflow = false ∧
      ((RunTimers I m n).timer id).counter = (m.timer id).counter + 1) ∧
    ((m.timer id).counter = 0xFFFF →
      ((RunTimers.body I n (RunTimers.upto I n m id.val) id).1.timer id).counter =
        (m.timer id).reload ∧
      ((RunTimers.body I n (RunTimers.upto I n m id.val) id).1.timer id).overflow = true ∧
      ((RunTimers I m n).timer id).counter = (m.timer id).reload ∧
      ((m.timer id).control.interrupt = true →
        (RunTimers I m n).irq_if &&& (I <<< id.val) = I <<< id.val)) ∧
    ((RunTimers I m n).timer (id - 1)).overflow = false ∧
    ((m.timer 0).control.enable = true → (m.timer 0).control.cascade = false →
      (m.timer 0).control.frequency = 0 → (m.timer 0).shift = 0 →
      (m.timer 0).counter = 0xFFFF → 0 ≤ (m.timer 0).cycles →
      (0 ≤ (m.timer 0).reload ∧ (m.timer 0).reload ≤ 0xFFFF) →
      (m.timer 1).control.enable = true → (m.timer 1).control.cascade = true →
      (m.timer 1).counter = 0 →
      ((RunTimers I m 1).timer 1).counter = 1 ∧ ((RunTimers I m 1).timer 0).overflow = false) := by
  obtain ⟨b1, b2, b3, b4⟩ := cascade_after_wrap I m n id h0 he hc hw
  rw [b1, b2]
  refine ⟨?_, ?_, b3, ?_⟩
  · intro h
    simp [cascadeStep, h]
  · intro h
    simp only [cascadeStep, h, if_true, true_and]
    exact b4 h
  · intro e0 c0 _ s0 cnt0 k0 r0 e1 c1 cnt1
    have hw1 : 0 < RunTimers.wraps I 1 m (1 - 1) := by
      show 0 < RunTimers.wraps I 1 m 0
      rw [wraps_free I 1 m 0 e0 c0, freeWraps_pos _ _ r0.2, cnt0]
      simp only [freeTicks, s0, int_shiftRight_zero]
      omega
    obtain ⟨_, d2, d3, _⟩ := cascade_after_wrap I m 1 1 (by decide) e1 c1 hw1
    refine ⟨?_, d3⟩
    rw [d2]
    simp [cascadeStep, cnt1]

/-- C4 at `chainBank`: timer 0 wraps in `RunTimers(1)`, cascade timer 1 goes from 0 to 1
and timer 0's `overflow` is consumed. -/
theorem C4_same_call_cascade_witness :
    0 < RunTimers.wraps 8 1 chainBank 0 ∧
    ((RunTimers 8 chainBank 1).timer 1).counter = (chainBank.timer 1).counter + 1 ∧
    ((RunTimers 8 chainBank 1).timer 0).overflow = false :=
  have h := C4_same_call_cascade 8 chainBank 1 1 (by decide) (by decide) (by decide) (by decide)
  ⟨by decide, (h.1 (by decide)).2.2, h.2.2.1⟩

/-- C5 as stated fails.  In `chainBank` timer 0 is enabled and free-running, timer 1 is
enabled in cascade mode with counter 0.  During `RunTimers(3)` timer 0 wraps three
times (the local `overflows` ends at 3), yet timer 1 takes one cascade step, not
three: its counter is 1 when the call returns. -/
theorem C5_counterexample :
    (chainBank.timer 0).control.enable = true ∧ (chainBank.timer 0).control.cascade = false ∧
    (chainBank.timer 1).control.enable = true ∧ (chainBank.timer 1).control.cascade = true ∧
    (chainBank.timer 1).counter = 0 ∧
    RunTimers.wraps 8 3 chainBank 0 = 3 ∧
    ((RunTimers 8 chainBank 3).timer 1).counter = 1 ∧
    ((RunTimers 8 chainBank 3).timer 1).counter ≠ (chainBank.timer 1).counter + 3 := by
  decide

/-- C5, amended.  For `id` in 1..3, let timer `id` be enabled in cascade mode and its
predecessor `id - 1` enabled and free-running with reload in [0, 0xFFFF], and let `w` be
the number of wraps the predecessor makes during `RunTimers(n)` (the local `overflows`).
Then timer `id` takes exactly one cascade step in that call when `w ≥ 1`, whatever `w`
is (plus one, or its reload value from 0xFFFF), and none when `w = 0`. -/
theorem C5_cascade_steps_once (I : Nat) (m : Mmio) (n : Int) (id : Fin 4) (h0 : id ≠ 0)
    (he : (m.timer id).control.enable = true)
    (hc : (m.timer id).control.cascade = true)
    (hpe : (m.timer (id - 1)).control.enable = true)
    (hpc : (m.timer (id - 1)).control.cascade = false)
    (hpr : 0 ≤ (m.timer (id - 1)).reload ∧ (m.timer (id - 1)).reload ≤ 0xFFFF) :
    ((RunTimers I m n).timer id).counter =
      (if 0 < RunTimers.wraps I n m (id - 1) then
        (if (m.timer id).counter = 0xFFFF then (m.timer id).reload else (m.timer id).counter + 1)
      else (m.timer id).counter) := by
  by_cases hw : 0 < RunTimers.wraps I n m (id - 1)
  · rw [if_pos hw, (cascade_after_wrap I m n id h0 he hc hw).2.1]
    unfold cascadeStep
    split <;> rfl
  · rw [if_neg hw]
    have hs := upto_timer_self I n m id
    have hsp := upto_timer_self I n m (id - 1)
    have hp : ¬ (id ≠ 0 ∧ ((RunTimers.upto I n m id.val).timer (id - 1)).overflow = true) := by
      rintro ⟨-, hov⟩
      rw [upto_pred I n m id h0,
        body_free I n _ (id - 1) (by rw [hsp]; exact hpe) (by rw [hsp]; exact hpc)] at hov
      simp only [Function.update_same, hsp, freeStep_overflow, decide_eq_true_eq] at hov
      rw [wraps_free I n m (id - 1) hpe hpc, freeWraps_pos _ _ hpr.2] at hw
      exact hw hov
    have hb := body_cascade_idle I n (RunTimers.upto I n m id.val) id (by rw [hs]; exact hc) hp
    have a2 := (after_step I n m id h0).2.1
    rw [hb, hs] at a2
    have := congrArg Timer.counter a2
    simpa [Timer.persistent] using this

/-- C5, amended, at `chainBank` with three cycles: three wraps of timer 0, one step of
timer 1. -/
theorem C5_cascade_steps_once_witness :
    RunTimers.wraps 8 3 chainBank (1 - 1) = 3 ∧
    ((RunTimers 8 chainBank 3).timer 1).counter = 1 :=
  ⟨by decide,
    (C5_cascade_steps_once 8 chainBank 3 1 (by decide) (by decide) (by decide) (by decide)
      (by decide) (by decide)).trans (by decide)⟩


/-- C6. Interrupt assertion.  With every reload in [0, 0xFFFF], the interrupt-request
word after `RunTimers(n)` is the word before OR-ed with `INT_TIMER0 << id` for exactly
the timers `id` that are enabled, have `interrupt` set and wrapped at least once in the
call (wrap count positive); such a timer contributes its bit once however often it
wrapped, the other timers contribute nothing, and no bit set before is cleared. -/
theorem C6_interrupt_assertion (I : Nat) (m : Mmio) (n : Int)
    (hr : ∀ j, 0 ≤ (m.timer j).reload ∧ (m.timer j).reload ≤ 0xFFFF) :
    (RunTimers I m n).irq_if =
      m.irq_if |||
        (if (m.timer 0).control.enable = true ∧ (m.timer 0).control.interrupt = true ∧
            0 < RunTimers.wraps I n m 0 then I <<< 0 else 0) |||
        (if (m.timer 1).control.enable = true ∧ (m.timer 1).control.interrupt = true ∧
            0 < RunTimers.wraps I n m 1 then I <<< 1 else 0) |||
        (if (m.timer 2).control.enable = true ∧ (m.timer 2).control.interrupt = true ∧
            0 < RunTimers.wraps I n m 2 then I <<< 2 else 0) |||
        (if (m.timer 3).control.enable = true ∧ (m.timer 3).control.interrupt = true ∧
            0 < RunTimers.wraps I n m 3 then I <<< 3 else 0) ∧
    (RunTimers I m n).irq_if &&& m.irq_if = m.irq_if := by
  have h := run_irq I n m (fun j _ _ => (hr j).2)
  constructor
  · rw [h]
    simp only [irqBit, Bool.and_eq_true, decide_eq_true_eq, and_assoc, Fin.val_zero, Fin.val_one,
      Fin.val_two]
    rfl
  · rw [h]
    simp only [Nat.or_assoc]
    exact nat_or_and_self _ _

/-- C6 at `chainBank`, three cycles: timer 0 wraps three times and raises its single
bit; cascade timer 1 steps without wrapping and raises nothing. -/
theorem C6_interrupt_assertion_witness :
    RunTimers.wraps 8 3 chainBank 0 = 3 ∧ (RunTimers 8 chainBank 3).irq_if = 8 :=
  ⟨by decide, (C6_interrupt_assertion 8 chainBank 3 (by decide)).1.trans (by decide)⟩

/-- C7. Enable-edge reload round trip.  For every timer `id`, bytes `lo`, `hi` and control
byte `v` with bit 7 set, starting from any state in which timer `id` is disabled:
`WriteTimer(id,0,lo)` and `WriteTimer(id,1,hi)` in either order, followed by
`WriteTimer(id,2,v)`, give `ReadTimer(id,0) = lo` and `ReadTimer(id,1) = hi` (the counter
is `hi*256 + lo` at once), and leave the timer's `overflow` flag and the
interrupt-request word as they were. -/
theorem C7_enable_edge_reload (m : Mmio) (id : Fin 4) (lo hi v : Fin 256)
    (hd : (m.timer id).control.enable = false) (hv : v.val &&& 128 ≠ 0) :
    (ReadTimer (WriteTimer (WriteTimer (WriteTimer m id 0 lo) id 1 hi) id 2 v) id 0 = lo.val ∧
     ReadTimer (WriteTimer (WriteTimer (WriteTimer m id 0 lo) id 1 hi) id 2 v) id 1 = hi.val ∧
     ((WriteTimer (WriteTimer (WriteTimer m id 0 lo) id 1 hi) id 2 v).timer id).counter =
        (hi.val : Int) * 256 + lo.val ∧
     ((WriteTimer (WriteTimer (WriteTimer m id 0 lo) id 1 hi) id 2 v).timer id).overflow =
        (m.timer id).overflow ∧
     (WriteTimer (WriteTimer (WriteTimer m id 0 lo) id 1 hi) id 2 v).irq_if = m.irq_if) ∧
    (ReadTimer (WriteTimer (WriteTimer (WriteTimer m id 1 hi) id 0 lo) id 2 v) id 0 = lo.val ∧
     ReadTimer (WriteTimer (WriteTimer (WriteTimer m id 1 hi) id 0 lo) id 2 v) id 1 = hi.val ∧
     ((WriteTimer (WriteTimer (WriteTimer m id 1 hi) id 0 lo) id 2 v).timer id).counter =
        (hi.val : Int) * 256 + lo.val ∧
     ((WriteTimer (WriteTimer (WriteTimer m id 1 hi) id 0 lo) id 2 v).timer id).overflow =
        (m.timer id).overflow ∧
     (WriteTimer (WriteTimer (WriteTimer m id 1 hi) id 0 lo) id 2 v).irq_if = m.irq_if) := by
  have hlo := lo.isLt
  have hhi := hi.isLt
  have key : ∀ s : Mmio,
      s = { m with
            timer := Function.update m.timer id
              ({ m.timer id with reload := ((lo.val ||| hi.val <<< 8 : Nat) : Int) }) } →
      ReadTimer (WriteTimer s id 2 v) id 0 = lo.val ∧
      ReadTimer (WriteTimer s id 2 v) id 1 = hi.val ∧
      ((WriteTimer s id 2 v).timer id).counter = (hi.val : Int) * 256 + lo.val ∧
      ((WriteTimer s id 2 v).timer id).overflow = (m.timer id).overflow ∧
      (WriteTimer s id 2 v).irq_if = m.irq_if := by
    intro s hs
    subst hs
    rw [write_control]
    simp only [ReadTimer, Function.update_same, Function.update_idem, hd, hv, ne_eq,
      not_false_eq_true, and_self, if_true]
    rw [read_lo_nat, read_hi_nat, lo_hi_value _ _ hlo]
    refine ⟨by omega, by omega, by push_cast; ring, trivial⟩
  exact ⟨key _ (write_lo_hi m id lo hi), key _ (write_hi_lo m id lo hi)⟩

/-- C7 with reload 0x1234 written to timer 2 of the reset bank, then control 0x80. -/
theorem C7_enable_edge_reload_witness :
    ((WriteTimer (WriteTimer (WriteTimer resetBank 2 0 0x34) 2 1 0x12) 2 2 0x80).timer 2).counter
      = 0x1234 :=
  (C7_enable_edge_reload resetBank 2 0x34 0x12 0x80 (by decide) (by decide)).1.2.2.1

/-- C8. A control write (offset 2) sets `counter := reload` exactly when the timer's
enable flag was false before the write and bit 7 of the written value is set; every
other control write (timer already enabled, or bit 7 clear) leaves the counter
unchanged; and no control write changes `reload`, `cycles` or `overflow`. -/
theorem C8_control_write_counter (m : Mmio) (id : Fin 4) (v : Fin 256) :
    ((m.timer id).control.enable = false ∧ v.val &&& 128 ≠ 0 →
      ((WriteTimer m id 2 v).timer id).counter = (m.timer id).reload) ∧
    (¬ ((m.timer id).control.enable = false ∧ v.val &&& 128 ≠ 0) →
      ((WriteTimer m id 2 v).timer id).counter = (m.timer id).counter) ∧
    ((WriteTimer m id 2 v).timer id).reload = (m.timer id).reload ∧
    ((WriteTimer m id 2 v).timer id).cycles = (m.timer id).cycles ∧
    ((WriteTimer m id 2 v).timer id).overflow = (m.timer id).overflow := by
  rw [write_control]
  refine ⟨fun h => ?_, fun h => ?_, ?_, ?_, ?_⟩
  · simp only [Function.update_same]; exact if_pos h
  · simp only [Function.update_same]; exact if_neg h
  · simp only [Function.update_same]
  · simp only [Function.update_same]
  · simp only [Function.update_same]

/-- C9. Reload byte writes.  For every timer `id`, byte `v` and state (the range of
`reload` plays no part): `WriteTimer(id,0,v)` yields `reload = (reload & 0xFF00) | v` and
`WriteTimer(id,1,v)` yields `reload = (reload & 0x00FF) | (v << 8)`; each leaves the
counter, the control flags, shift, mask, cycles and overflow of timer `id`, every other
timer and the interrupt-request word unchanged; and a low-byte write commutes with a
high-byte write. -/
theorem C9_reload_byte_writes (m : Mmio) (id : Fin 4) (v : Fin 256) :
    (((WriteTimer m id 0 v).timer id).reload =
        Int.lor (Int.land (m.timer id).reload 0xFF00) (v.val : Int) ∧
     ((WriteTimer m id 0 v).timer id).counter = (m.timer id).counter ∧
     ((WriteTimer m id 0 v).timer id).control = (m.timer id).control ∧
     ((WriteTimer m id 0 v).timer id).shift = (m.timer id).shift ∧
     ((WriteTimer m id 0 v).timer id).mask = (m.timer id).mask ∧
     ((WriteTimer m id 0 v).timer id).cycles = (m.timer id).cycles ∧
     ((WriteTimer m id 0 v).timer id).overflow = (m.timer id).overflow ∧
     (∀ j, j ≠ id → (WriteTimer m id 0 v).timer j = m.timer j) ∧
     (WriteTimer m id 0 v).irq_if = m.irq_if) ∧
    (((WriteTimer m id 1 v).timer id).reload =
        Int.lor (Int.land (m.timer id).reload 0x00FF) ((v.val <<< 8 : Nat) : Int) ∧
     ((WriteTimer m id 1 v).timer id).counter = (m.timer id).counter ∧
     ((WriteTimer m id 1 v).timer id).control = (m.timer id).control ∧
     ((WriteTimer m id 1 v).timer id).shift = (m.timer id).shift ∧
     ((WriteTimer m id 1 v).timer id).mask = (m.timer id).mask ∧
     ((WriteTimer m id 1 v).timer id).cycles = (m.timer id).cycles ∧
     ((WriteTimer m id 1 v).timer id).overflow = (m.timer id).overflow ∧
     (∀ j, j ≠ id → (WriteTimer m id 1 v).timer j = m.timer j) ∧
     (WriteTimer m id 1 v).irq_if = m.irq_if) ∧
    (∀ a b : Fin 256,
      WriteTimer (WriteTimer m id 0 a) id 1 b = WriteTimer (WriteTimer m id 1 b) id 0 a) := by
  refine ⟨?_, ?_, ?_⟩
  · rw [write_reload_lo]
    simp only [Function.update_same, Nat.shiftLeft_zero, true_and]
    exact ⟨fun j hj => Function.update_noteq hj _ _, trivial⟩
  · rw [write_reload_hi]
    simp only [Function.update_same, true_and]
    exact ⟨fun j hj => Function.update_noteq hj _ _, trivial⟩
  · intro a b
    rw [write_lo_hi, write_hi_lo]

set_option maxRecDepth 100000 in
theorem control_byte_value : ∀ v : Fin 256,
    (v.val &&& 3 ||| (if (v.val &&& 4 != 0) = true then 4 else 0) |||
      (if (v.val &&& 64 != 0) = true then 64 else 0) |||
      (if (v.val &&& 128 != 0) = true then 128 else 0)) % 256 = v.val &&& 0xC7 := by
  decide

/-- C10. Control byte read-back.  For every timer `id`, state and byte `v`, after
`WriteTimer(id, 2, v)` the value `ReadTimer(id, 2)` is `v & 0xC7`: bits 0-1 frequency,
bit 2 cascade, bit 6 interrupt-enable, bit 7 enable; bits 3-5 read as zero. -/
theorem C10_control_read_back (m : Mmio) (id : Fin 4) (v : Fin 256) :
    ReadTimer (WriteTimer m id 2 v) id 2 = v.val &&& 0xC7 := by
  rw [write_control]
  simp only [ReadTimer, Function.update_same]
  exact control_byte_value v

/-- C11. Reset postcondition.  From every prior state, after `ResetTimers` every timer
`id` in 0..3 has its `id` field equal to `id`, `counter = reload = 0`, `frequency = 0`,
`cascade = interrupt = enable = false`, `shift = mask = 0`, `cycles = 0` and
`overflow = false` (the interrupt-request word is not touched); so `ReadTimer(id, offset)`
is 0 for every `id` and offset, and `ResetTimers` is idempotent. -/
theorem C11_reset_postcondition (m : Mmio) :
    (∀ id : Fin 4,
      ((ResetTimers m).timer id).id = (id.val : Int) ∧
      ((ResetTimers m).timer id).counter = 0 ∧ ((ResetTimers m).timer id).reload = 0 ∧
      ((ResetTimers m).timer id).control.frequency = 0 ∧
      ((ResetTimers m).timer id).control.cascade = false ∧
      ((ResetTimers m).timer id).control.interrupt = false ∧
      ((ResetTimers m).timer id).control.enable = false ∧
      ((ResetTimers m).timer id).shift = 0 ∧ ((ResetTimers m).timer id).mask = 0 ∧
      ((ResetTimers m).timer id).cycles = 0 ∧ ((ResetTimers m).timer id).overflow = false) ∧
    (ResetTimers m).irq_if = m.irq_if ∧
    (∀ (id : Fin 4) (offset : Int), ReadTimer (ResetTimers m) id offset = 0) ∧
    ResetTimers (ResetTimers m) = ResetTimers m := by
  refine ⟨?_, rfl, ?_, ?_⟩
  · intro id
    rw [reset_timer]
    simp
  · intro id offset
    unfold ReadTimer
    rw [reset_timer]
    split <;> simp
    · decide
    · decide
  · have h : ∀ s : Mmio, ResetTimers s =
        ⟨fun id => ⟨(id.val : Int), 0, 0, 0, ⟨0, false, false, false⟩, false, 0, 0⟩, s.irq_if⟩ := by
      intro s
      have e : (ResetTimers s).timer =
          fun id => ⟨(id.val : Int), 0, 0, 0, ⟨0, false, false, false⟩, false, 0, 0⟩ :=
        funext (reset_timer s)
      cases hs : ResetTimers s with
      | mk t i =>
        rw [hs] at e
        have hi : i = s.irq_if := by
          have := reset_irq s
          rw [hs] at this
          exact this
        simp only at e
        rw [e, hi]
    rw [h (ResetTimers m), h m]

/-- C12 as stated fails on the `overflow` field.  `cascadeZeroBank` is reachable; its
timer 0 is enabled with the cascade flag set and still holds `overflow = true` from the
wrap it made before the flag was written; timer 1 is enabled in cascade mode.
`RunTimers(1)` lets timer 1 consume that flag, so timer 0's `overflow` is false after
the call. -/
theorem C12_counterexample :
    Reachable 8 cascadeZeroBank ∧
    (cascadeZeroBank.timer 0).control.enable = true ∧
    (cascadeZeroBank.timer 0).control.cascade = true ∧
    (cascadeZeroBank.timer 0).overflow = true ∧
    ((RunTimers 8 cascadeZeroBank 1).timer 0).overflow = false ∧
    (RunTimers 8 cascadeZeroBank 1).timer 0 ≠ cascadeZeroBank.timer 0 :=
  ⟨Reachable.write _ _ _ _ (Reachable.write _ _ _ _ (Reachable.run _ _ (by decide)
      (Reachable.write _ _ _ _ (Reachable.write _ _ _ _ (Reachable.write _ _ _ _
        (Reachable.reset _)))))),
    by decide, by decide, by decide, by decide, by decide⟩

/-- C12, amended.  For every state in which timer 0 is enabled with the cascade flag set
and every `n`, timer 0's own iteration of `RunTimers(n)` changes nothing (no record, no
interrupt-request bit, no wrap), and the call leaves timer 0's id, counter, reload,
control, shift, mask and cycles unchanged; its `overflow` flag is unchanged too, except
that it is cleared when timer 1 is enabled in cascade mode (timer 1 consumes it). -/
theorem C12_cascade_on_timer0 (I : Nat) (m : Mmio) (n : Int)
    (_he : (m.timer 0).control.enable = true) (hc : (m.timer 0).control.cascade = true) :
    RunTimers.body I n m 0 = (m, 0) ∧
    ((RunTimers I m n).timer 0).id = (m.timer 0).id ∧
    ((RunTimers I m n).timer 0).counter = (m.timer 0).counter ∧
    ((RunTimers I m n).timer 0).reload = (m.timer 0).reload ∧
    ((RunTimers I m n).timer 0).control = (m.timer 0).control ∧
    ((RunTimers I m n).timer 0).shift = (m.timer 0).shift ∧
    ((RunTimers I m n).timer 0).mask = (m.timer 0).mask ∧
    ((RunTimers I m n).timer 0).cycles = (m.timer 0).cycles ∧
    ((RunTimers I m n).timer 0).overflow =
      ((m.timer 0).overflow && !((m.timer 1).control.enable && (m.timer 1).control.cascade)) := by
  have hidle : (m.timer 0).control.enable = false ∨
      ((m.timer 0).control.cascade = true ∧ (0 : Fin 4) = 0) := Or.inr ⟨hc, rfl⟩
  have hp := idle_persistent I n m 0 hidle
  have ho := idle_overflow_pred I n m 1 (by decide) hidle
  refine ⟨body_idle I n m m 0 hidle rfl, ?_, ?_, ?_, ?_, ?_, ?_, ?_, ho⟩
  · have := congrArg Timer.id hp; simpa [Timer.persistent] using this
  · have := congrArg Timer.counter hp; simpa [Timer.persistent] using this
  · have := congrArg Timer.reload hp; simpa [Timer.persistent] using this
  · have := congrArg Timer.control hp; simpa [Timer.persistent] using this
  · have := congrArg Timer.shift hp; simpa [Timer.persistent] using this
  · have := congrArg Timer.mask hp; simpa [Timer.persistent] using this
  · have := congrArg Timer.cycles hp; simpa [Timer.persistent] using this

/-- C12, amended, at `cascadeZeroBank`: the counter of timer 0 stays at 0xFFFF and its
pending `overflow` flag is consumed by timer 1. -/
theorem C12_cascade_on_timer0_witness :
    ((RunTimers 8 cascadeZeroBank 1).timer 0).counter = 0xFFFF ∧
    ((RunTimers 8 cascadeZeroBank 1).timer 0).overflow = false :=
  have h := C12_cascade_on_timer0 8 cascadeZeroBank 1 (by decide) (by decide)
  ⟨h.2.2.1.trans (by decide), h.2.2.2.2.2.2.2.2.trans (by decide)⟩

/-- C13 as stated fails on the `overflow` field.  `staleFlagBank` is reachable; its
timer 0 is disabled and still holds `overflow = true` from its last wrap, and timer 1 is
enabled in cascade mode.  `RunTimers(1)` skips timer 0, but timer 1 consumes the flag:
timer 0's `overflow` is false after the call. -/
theorem C13_counterexample :
    Reachable 8 staleFlagBank ∧
    (staleFlagBank.timer 0).control.enable = false ∧
    (staleFlagBank.timer 0).overflow = true ∧
    ((RunTimers 8 staleFlagBank 1).timer 0).overflow = false ∧
    (RunTimers 8 staleFlagBank 1).timer 0 ≠ staleFlagBank.timer 0 :=
  ⟨Reachable.write _ _ _ _ (Reachable.write _ _ _ _ (Reachable.run _ _ (by decide)
      (Reachable.write _ _ _ _ (Reachable.write _ _ _ _ (Reachable.write _ _ _ _
        (Reachable.reset _)))))),
    by decide, by decide, by decide, by decide⟩

/-- C13, amended.  For every state, every `n` and every timer `id` whose enable flag is
false, timer `id`'s own iteration of `RunTimers(n)` changes nothing (no record, no
interrupt-request bit, no wrap), and the call leaves its id, counter, reload, control
flags, shift, mask and cycles unchanged; its `overflow` flag is unchanged too, except
that it is cleared when `id < 3` and timer `id + 1` is enabled in cascade mode (the
successor consumes it). -/
theorem C13_disabled_timer (I : Nat) (m : Mmio) (n : Int) (id : Fin 4)
    (hd : (m.timer id).control.enable = false) :
    RunTimers.body I n (RunTimers.upto I n m id.val) id = (RunTimers.upto I n m id.val, 0) ∧
    ((RunTimers I m n).timer id).id = (m.timer id).id ∧
    ((RunTimers I m n).timer id).counter = (m.timer id).counter ∧
    ((RunTimers I m n).timer id).reload = (m.timer id).reload ∧
    ((RunTimers I m n).timer id).control = (m.timer id).control ∧
    ((RunTimers I m n).timer id).shift = (m.timer id).shift ∧
    ((RunTimers I m n).timer id).mask = (m.timer id).mask ∧
    ((RunTimers I m n).timer id).cycles = (m.timer id).cycles ∧
    ((RunTimers I m n).timer id).overflow =
      ((m.timer id).overflow &&
        !(decide (id ≠ 3) && (m.timer (id + 1)).control.enable &&
          (m.timer (id + 1)).control.cascade)) := by
  have hidle : (m.timer id).control.enable = false ∨
      ((m.timer id).control.cascade = true ∧ id = 0) := Or.inl hd
  have hp := idle_persistent I n m id hidle
  have hb := body_idle I n m (RunTimers.upto I n m id.val) id hidle
    (by rw [upto_timer_self I n m id])
  refine ⟨hb, ?_, ?_, ?_, ?_, ?_, ?_, ?_, ?_⟩
  · have := congrArg Timer.id hp; simpa [Timer.persistent] using this
  · have := congrArg Timer.counter hp; simpa [Timer.persistent] using this
  · have := congrArg Timer.reload hp; simpa [Timer.persistent] using this
  · have := congrArg Timer.control hp; simpa [Timer.persistent] using this
  · have := congrArg Timer.shift hp; simpa [Timer.persistent] using this
  · have := congrArg Timer.mask hp; simpa [Timer.persistent] using this
  · have := congrArg Timer.cycles hp; simpa [Timer.persistent] using this
  · fin_cases id
    · have h := idle_overflow_pred I n m 1 (by decide) (Or.inl hd)
      simpa using h
    · have h := idle_overflow_pred I n m 2 (by decide) (Or.inl hd)
      simpa using h
    · have h := idle_overflow_pred I n m 3 (by decide) (Or.inl hd)
      simpa using h
    · have h := idle_overflow_last I n m (Or.inl hd)
      simp [h]

/-- C13, amended, at `staleFlagBank`: the disabled timer 0 keeps its counter 0xFFFF, and
its pending `overflow` flag is consumed by the cascade timer 1. -/
theorem C13_disabled_timer_witness :
    ((RunTimers 8 staleFlagBank 1).timer 0).counter = 0xFFFF ∧
    ((RunTimers 8 staleFlagBank 1).timer 0).overflow = false :=
  have h := C13_disabled_timer 8 staleFlagBank 1 0 (by decide)
  ⟨h.2.2.1.trans (by decide), h.2.2.2.2.2.2.2.2.trans (by decide)⟩

/-- C14. Unused offsets.  For every timer `id`, state, byte `v` and offset other than
0, 1 and 2, `ReadTimer(id, offset)` returns 0 and `WriteTimer(id, offset, v)` leaves the
whole timer bank and the interrupt-request word unchanged. -/
theorem C14_unused_offsets (m : Mmio) (id : Fin 4) (offset : Int) (v : Fin 256)
    (h0 : offset ≠ 0) (h1 : offset ≠ 1) (h2 : offset ≠ 2) :
    ReadTimer m id offset = 0 ∧ WriteTimer m id offset v = m := by
  constructor
  · unfold ReadTimer
    split
    · exact absurd rfl h0
    · exact absurd rfl h1
    · exact absurd rfl h2
    · rfl
  · unfold WriteTimer
    split
    · exact absurd rfl h0
    · exact absurd rfl h1
    · exact absurd rfl h2
    · rfl

/-- C14 at offset 3 of timer 1 of `chainBank`. -/
theorem C14_unused_offsets_witness :
    ReadTimer chainBank 1 3 = 0 ∧ WriteTimer chainBank 1 3 0xFF = chainBank :=
  C14_unused_offsets chainBank 1 3 0xFF (by decide) (by decide) (by decide)

/-- C15. Range invariant.  In every state reachable from `ResetTimers` by any sequence of
`WriteTimer` (any timer, offset and byte) and `RunTimers(n ≥ 0)` calls, every timer has
`counter` in [0, 0xFFFF] and `reload` in [0, 0xFFFF]; the arithmetic is on unbounded
integers, so the bound does not rest on a 16-bit truncation of the fields. -/
theorem C15_range_invariant (I : Nat) (s : Mmio) (h : Reachable I s) (j : Fin 4) :
    (0 ≤ (s.timer j).counter ∧ (s.timer j).counter ≤ 0xFFFF) ∧
    (0 ≤ (s.timer j).reload ∧ (s.timer j).reload ≤ 0xFFFF) :=
  ⟨(reachable_wf I s h j).1, (reachable_wf I s h j).2.1⟩

/-- C15 at `staleBank`, reached by reset, a control write, `RunTimers(10)` and a second
control write. -/
theorem C15_range_invariant_witness :
    (0 ≤ (staleBank.timer 0).counter ∧ (staleBank.timer 0).counter ≤ 0xFFFF) ∧
    (0 ≤ (staleBank.timer 0).reload ∧ (staleBank.timer 0).reload ≤ 0xFFFF) :=
  C15_range_invariant 8 staleBank
    (Reachable.write _ _ _ _
      (Reachable.run _ _ (by decide) (Reachable.write _ _ _ _ (Reachable.reset _)))) 0

/-- C16. Divisor consistency invariant.  In every state reachable from `ResetTimers` by
any sequence of `WriteTimer` and `RunTimers` calls, every timer has `frequency` in [0, 3],
`shift = [0, 6, 8, 10][frequency]` and `mask = 2^shift - 1`, that is
`mask = [0, 0x3F, 0xFF, 0x3FF][frequency]`. -/
theorem C16_divisor_consistency (I : Nat) (s : Mmio) (h : Reachable I s) (j : Fin 4) :
    (s.timer j).control.frequency ≤ 3 ∧
    (s.timer j).shift = g_ticks_shift.getD (s.timer j).control.frequency 0 ∧
    (s.timer j).mask = 2 ^ (s.timer j).shift - 1 ∧
    (s.timer j).mask = g_ticks_mask.getD (s.timer j).control.frequency 0 :=
  have w := reachable_wf I s h j
  ⟨w.2.2.1, w.2.2.2.1, (wf_tables _ w).1, w.2.2.2.2.1⟩

/-- C16 at `divisorBank` (timers 0 and 2 armed at divisor 64): shift 6, mask 0x3F. -/
theorem C16_divisor_consistency_witness :
    (divisorBank.timer 2).control.frequency ≤ 3 ∧
    (divisorBank.timer 2).shift = g_ticks_shift.getD (divisorBank.timer 2).control.frequency 0 ∧
    (divisorBank.timer 2).mask = 2 ^ (divisorBank.timer 2).shift - 1 ∧
    (divisorBank.timer 2).mask = g_ticks_mask.getD (divisorBank.timer 2).control.frequency 0 :=
  C16_divisor_consistency 8 divisorBank
    (Reachable.write _ _ _ _ (Reachable.write _ _ _ _ (Reachable.write _ _ _ _
      (Reachable.write _ _ _ _ (Reachable.reset _))))) 2

/-- C17 as stated fails.  `staleBank` is reachable (reset, control write 0x81 to timer 0,
`RunTimers(10)`, control write 0x80 to timer 0); its timer 0 is not in cascade mode and
holds `cycles = 10` with `mask = 0`: the second control write replaced the mask and left
the leftover cycles of the old divisor in place. -/
theorem C17_counterexample :
    Reachable 8 staleBank ∧
    (staleBank.timer 0).control.cascade = false ∧
    (staleBank.timer 0).cycles = 10 ∧ (staleBank.timer 0).mask = 0 ∧
    ¬ ((staleBank.timer 0).cycles ≤ (staleBank.timer 0).mask) :=
  ⟨Reachable.write _ _ _ _
      (Reachable.run _ _ (by decide) (Reachable.write _ _ _ _ (Reachable.reset _))),
    by decide, by decide, by decide, by decide⟩

/-- C17, amended.  In every state reachable from `ResetTimers` by `WriteTimer` and
`RunTimers(n ≥ 0)` calls, every timer satisfies `0 ≤ cycles ≤ 0x3FF` (the largest mask);
and when `RunTimers(n)`, `n ≥ 0`, returns from such a state, every timer that is enabled
and not in cascade mode satisfies `0 ≤ cycles ≤ mask`. -/
theorem C17_leftover_cycles (I : Nat) (s : Mmio) (h : Reachable I s) :
    (∀ j, 0 ≤ (s.timer j).cycles ∧ (s.timer j).cycles ≤ 0x3FF) ∧
    (∀ (n : Int) (j : Fin 4), 0 ≤ n →
      (s.timer j).control.enable = true → (s.timer j).control.cascade = false →
      0 ≤ ((RunTimers I s n).timer j).cycles ∧
      ((RunTimers I s n).timer j).cycles ≤ ((RunTimers I s n).timer j).mask) := by
  have w := reachable_wf I s h
  refine ⟨fun j => (w j).2.2.2.2.2, ?_⟩
  intro n j hn he hc
  have f := run_free_fields I n s j he hc (w j).2.1.2
  have g := wf_freeStep (s.timer j) n hn (w j)
  rw [f.2.1, f.2.2.2.2.1, ← freeStep_cycles]
  exact ⟨g.1.2.2.2.2.2.1, g.2⟩

/-- C17, amended, at `divisorBank` run for 100 cycles: timer 0 (divisor 64) keeps a
leftover of 36. -/
theorem C17_leftover_cycles_witness :
    ((RunTimers 8 divisorBank 100).timer 0).cycles = 36 ∧
    ((RunTimers 8 divisorBank 100).timer 0).cycles ≤ ((RunTimers 8 divisorBank 100).timer 0).mask :=
  ⟨by decide,
    ((C17_leftover_cycles 8 divisorBank
      (Reachable.write _ _ _ _ (Reachable.write _ _ _ _ (Reachable.write _ _ _ _
        (Reachable.write _ _ _ _ (Reachable.reset _)))))).2 100 0 (by decide) (by decide)
      (by decide)).2⟩

/-- C18 as stated fails, in both parts.  `disabledBank` is reachable: timer 0 wrapped in
an earlier call and was then disabled.  `RunTimers(1)` skips it (wrap count 0), and its
`overflow` flag is still true after this most recent call.  `staleFlagBank` arms timer 1
in cascade mode behind that timer: in `RunTimers(1)` timer 0 does not wrap, yet the cascade
branch runs for timer 1 and its counter goes from 0 to 1. -/
theorem C18_counterexample :
    (Reachable 8 disabledBank ∧
      RunTimers.wraps 8 1 disabledBank 0 = 0 ∧
      ((RunTimers 8 disabledBank 1).timer 0).overflow = true) ∧
    (Reachable 8 staleFlagBank ∧
      (staleFlagBank.timer 1).control.enable = true ∧
      (staleFlagBank.timer 1).control.cascade = true ∧
      RunTimers.wraps 8 1 staleFlagBank 0 = 0 ∧
      RunTimers.cascades 8 1 staleFlagBank 1 = true ∧
      (staleFlagBank.timer 1).counter = 0 ∧
      ((RunTimers 8 staleFlagBank 1).timer 1).counter = 1) :=
  ⟨⟨Reachable.write _ _ _ _ (Reachable.run _ _ (by decide)
      (Reachable.write _ _ _ _ (Reachable.write _ _ _ _ (Reachable.write _ _ _ _
        (Reachable.reset _))))),
    by decide, by decide⟩,
   ⟨Reachable.write _ _ _ _ (Reachable.write _ _ _ _ (Reachable.run _ _ (by decide)
      (Reachable.write _ _ _ _ (Reachable.write _ _ _ _ (Reachable.write _ _ _ _
        (Reachable.reset _)))))),
    by decide, by decide, by decide, by decide, by decide, by decide⟩⟩

/-- C18, amended.  From every reachable state and for every `n`: a timer that is enabled
and free-running has its `overflow` flag true when `RunTimers(n)` returns only if its
counter wrapped during that call; and for a cascade-mode timer `id ≥ 1` whose
predecessor is enabled and free-running, the cascade branch runs in that call, and
the counter of timer `id` changes, only if timer `id - 1` wrapped earlier in that same
call. -/
theorem C18_overflow_transient (I : Nat) (s : Mmio) (h : Reachable I s) (n : Int) (id : Fin 4) :
    ((s.timer id).control.enable = true → (s.timer id).control.cascade = false →
      ((RunTimers I s n).timer id).overflow = true → 0 < RunTimers.wraps I n s id) ∧
    (id ≠ 0 → (s.timer id).control.enable = true → (s.timer id).control.cascade = true →
      (s.timer (id - 1)).control.enable = true → (s.timer (id - 1)).control.cascade = false →
      (RunTimers.cascades I n s id = true → 0 < RunTimers.wraps I n s (id - 1)) ∧
      (((RunTimers I s n).timer id).counter ≠ (s.timer id).counter →
        0 < RunTimers.wraps I n s (id - 1))) := by
  have w := reachable_wf I s h
  refine ⟨fun he hc hov => free_overflow_wrapped I n s id he hc (w id).2.1.2 hov, ?_⟩
  intro h0 _ hc hpe hpc
  have hpr := (w (id - 1)).2.1.2
  constructor
  · intro hcas
    unfold RunTimers.cascades at hcas
    simp only [Bool.and_eq_true] at hcas
    exact (pred_flag_iff_wraps I n s id h0 hpe hpc hpr).1 hcas.2
  · intro hne
    by_contra hw
    exact hne (cascade_counter_kept I n s id h0 hc hpe hpc hpr hw)

/-- C18, amended, at `chainBank`: timer 1 steps in `RunTimers(1)`, and timer 0 did wrap
in that call. -/
theorem C18_overflow_transient_witness :
    RunTimers.cascades 8 1 chainBank 1 = true ∧ 0 < RunTimers.wraps 8 1 chainBank (1 - 1) :=
  ⟨by decide,
    ((C18_overflow_transient 8 chainBank
      (Reachable.write _ _ _ _ (Reachable.write _ _ _ _ (Reachable.write _ _ _ _
        (Reachable.write _ _ _ _ (Reachable.reset _))))) 1 1).2 (by decide) (by decide)
      (by decide) (by decide) (by decide)).1 (by decide)⟩

/-- C19 as stated fails: `RunTimers` has no check on its argument.  In the reachable
`nearWrapBank`, timer 0 is enabled and free-running at counter 0xFFFE; `RunTimers(-1)`
runs the usual arithmetic and moves the counter to 0xFFFD. -/
theorem C19_counterexample :
    Reachable 8 nearWrapBank ∧ ((-1 : Int) < 0) ∧
    (nearWrapBank.timer 0).counter = 0xFFFE ∧
    ((RunTimers 8 nearWrapBank (-1)).timer 0).counter = 0xFFFD ∧
    ((RunTimers 8 nearWrapBank (-1)).timer 0).counter ≠ (nearWrapBank.timer 0).counter :=
  ⟨Reachable.write _ _ _ _ (Reachable.write _ _ _ _ (Reachable.write _ _ _ _
      (Reachable.write _ _ _ _ (Reachable.write _ _ _ _ (Reachable.reset _))))),
    by decide, by decide, by decide, by decide⟩

/-- C19, amended.  `RunTimers(n)` with `n < 0` is not rejected; it runs the same loop as
for any other count.  It leaves all four timer records and the interrupt-request word
unchanged in every state in which no timer has work to do: each timer is disabled, or
it is in cascade mode and is timer 0 or has a predecessor whose `overflow` flag is
clear. -/
theorem C19_negative_count (I : Nat) (m : Mmio) (n : Int) (_hn : n < 0)
    (hidle : ∀ id : Fin 4, (m.timer id).control.enable = false ∨
      ((m.timer id).control.cascade = true ∧
        (id = 0 ∨ (m.timer (id - 1)).overflow = false))) :
    RunTimers I m n = m := by
  have hb : ∀ id : Fin 4, RunTimers.body I n m id = (m, 0) := by
    intro id
    rcases hidle id with h | ⟨hc, h⟩
    · exact body_disabled I n m id h
    · refine body_cascade_idle I n m id hc ?_
      rintro ⟨h0, hov⟩
      rcases h with h | h
      · exact h0 h
      · rw [h] at hov; exact Bool.noConfusion hov
  unfold RunTimers
  simp only [List.foldl_cons, List.foldl_nil, hb]

/-- C19, amended, at the reset bank (every timer disabled) with `n = -5`. -/
theorem C19_negative_count_witness : RunTimers 8 resetBank (-5) = resetBank :=
  C19_negative_count 8 resetBank (-5) (by decide) (by decide)

/-- C20. Division safety.  In every state reachable from `ResetTimers` by `WriteTimer` and
`RunTimers(n ≥ 0)` calls, the divisor `0x10000 - reload` of every timer is at least 1 and
at most 0x10000; and whenever the iteration of an enabled free-running timer in
`RunTimers(n)` reaches `increments / to_overflow` and `increments %= to_overflow` (it
wraps, and the ticks left are at least `0x10000 - reload`), the remainder is at least 0
and strictly less than `0x10000 - reload`, and the counter becomes reload plus that
remainder. -/
theorem C20_division_safety (I : Nat) (s : Mmio) (h : Reachable I s) (n : Int) (j : Fin 4) :
    (1 ≤ 0x10000 - (s.timer j).reload ∧ 0x10000 - (s.timer j).reload ≤ 0x10000) ∧
    ((s.timer j).control.enable = true → (s.timer j).control.cascade = false →
      0x10000 - (s.timer j).counter ≤ Int.shiftRight ((s.timer j).cycles + n) (s.timer j).shift →
      0x10000 - (s.timer j).reload ≤
        Int.shiftRight ((s.timer j).cycles + n) (s.timer j).shift - (0x10000 - (s.timer j).counter) →
      0 ≤ Int.tmod
        (Int.shiftRight ((s.timer j).cycles + n) (s.timer j).shift - (0x10000 - (s.timer j).counter))
        (0x10000 - (s.timer j).reload) ∧
      Int.tmod
        (Int.shiftRight ((s.timer j).cycles + n) (s.timer j).shift - (0x10000 - (s.timer j).counter))
        (0x10000 - (s.timer j).reload) < 0x10000 - (s.timer j).reload ∧
      ((RunTimers.body I n (RunTimers.upto I n s j.val) j).1.timer j).counter =
        (s.timer j).reload + Int.tmod
          (Int.shiftRight ((s.timer j).cycles + n) (s.timer j).shift -
            (0x10000 - (s.timer j).counter))
          (0x10000 - (s.timer j).reload)) := by
  have w := reachable_wf I s h j
  obtain ⟨hc, hr, -⟩ := w
  refine ⟨by omega, ?_⟩
  intro he hcas h1 h2
  have hs := upto_timer_self I n s j
  rw [body_free I n _ j (by rw [hs]; exact he) (by rw [hs]; exact hcas)]
  simp only [Function.update_same, hs]
  generalize hT : Int.shiftRight ((s.timer j).cycles + n) (s.timer j).shift = T at h1 h2 ⊢
  have hP : (0 : Int) < 0x10000 - (s.timer j).reload := by omega
  rw [Int.tmod_eq_emod (by omega) hP.le]
  refine ⟨Int.emod_nonneg _ (ne_of_gt hP), Int.emod_lt_of_pos _ hP, ?_⟩
  unfold freeStep freeRest freeTicks
  rw [hT]
  simp only [h1, h2, if_true]
  rw [Int.tmod_eq_emod (by omega) hP.le]

/-- C20 at `chainBank` run for 3 cycles: timer 0 (counter and reload 0xFFFF) wraps,
two ticks are left against a divisor of 1, and the remainder is 0. -/
theorem C20_division_safety_witness :
    Int.tmod
      (Int.shiftRight ((chainBank.timer 0).cycles + 3) (chainBank.timer 0).shift -
        (0x10000 - (chainBank.timer 0).counter))
      (0x10000 - (chainBank.timer 0).reload) < 0x10000 - (chainBank.timer 0).reload :=
  ((C20_division_safety 8 chainBank
    (Reachable.write _ _ _ _ (Reachable.write _ _ _ _ (Reachable.write _ _ _ _
      (Reachable.write _ _ _ _ (Reachable.reset _))))) 3 0).2 (by decide) (by decide) (by decide)
    (by decide)).2.1

end NanoboyAdvance.GBA
